import Mathlib

/-!
# Greenlight: the JSON boundary and the movie checks

A shallow embedding of `cmd/api/helpers.go` (`readJSON`, `writeJSON`),
`internal/data/movies.go` (`ValidateMovie`) and the inline checks of
`createMovieHandler` in `cmd/api/movies.go`.

* Go maps are association lists whose keys are pairwise distinct; Go strings
  are Lean strings and `len` is the length in bytes; `int32` values are
  integers.
* The package `internal/validator` (`Validator`, `New`, `Check`, `Valid`,
  `Unique`) is not part of the sources at hand and is modelled from the
  specification.
* `readJSON` is a function of what the two calls to `Decode` return. The
  decoder itself belongs to Go's library: its framing of a bounded body into
  JSON values is modelled in a section of its own, so that statements about
  bodies can be evaluated; unmarshalling a value into a destination, the
  encoder `json.MarshalIndent` and `strconv.Quote` are parameters.
* `writeJSON` acts on the response of Go's HTTP server: `WriteHeader` panics
  on a code outside 100..999 and sends a 1xx code as an informational header,
  and `Write` drops the bytes when the status allows no body or when they
  exceed a declared Content-Length.
-/

namespace Greenlight

/-! ## Go maps keyed by strings -/

/-- A Go `map[string]V`: an association list, read through `GoMap.get`
and written through `GoMap.set`, which keeps the keys pairwise distinct. -/
abbrev GoMap (V : Type) := List (String × V)

namespace GoMap

/-- Go `m[k]` with the comma-ok form: the value stored under `k`, if any. -/
def get {V : Type} : GoMap V → String → Option V
  | [], _ => none
  | (k', v) :: rest, k => if k' = k then some v else get rest k

/-- Go `m[k] = v`: overwrite the entry of `k` when there is one, add it
otherwise. -/
def set {V : Type} : GoMap V → String → V → GoMap V
  | [], k, v => [(k, v)]
  | (k', v') :: rest, k, v =>
      if k' = k then (k, v) :: rest else (k', v') :: set rest k v

/-- Go `len(m)`. -/
def len {V : Type} (m : GoMap V) : Nat := m.length

/-- The keys of the map. -/
def keys {V : Type} (m : GoMap V) : List String := m.map Prod.fst

end GoMap

/-! ## The validation accumulator (package `internal/validator`) -/

/-- Modelled from the spec: the type `validator.Validator` of package
`internal/validator`, whose source is not part of the files at hand. The
report is "a mapping from field name to a human-readable failure message". -/
structure Validator where
  Errors : GoMap String
deriving DecidableEq, Repr

namespace Validator

/-- Modelled from the spec: `validator.New`, which is missing from the
sources; a report is "created per request" and starts with no entries. -/
def New : Validator := ⟨[]⟩

/-- Modelled from the spec: `Validator.Valid`, which is missing from the
sources: "true iff no entries recorded". -/
def Valid (v : Validator) : Bool := v.Errors.len == 0

/-- Modelled from the spec: `Validator.Check`, which is missing from the
sources: it "records `(field, message)` into the report only when `passed`
is false", and "only the first failing check for a field is retained
(subsequent failing checks on an already-failed field are ignored)". -/
def Check (v : Validator) (passed : Bool) (field message : String) : Validator :=
  if passed then v
  else
    match v.Errors.get field with
    | some _ => v
    | none => ⟨v.Errors.set field message⟩

end Validator

/-- Modelled from the spec: `validator.Unique`, which is missing from the
sources: "Uniqueness is determined by exact value equality across the
collection; any two equal elements constitute a violation regardless of
position." -/
def Unique : List String → Bool
  | [] => true
  | x :: rest => !rest.contains x && Unique rest

/-! ## The movie checks -/

/-- Go `int32(n)` for an `int` value `n`: the low 32 bits, read as a signed
number. -/
def toInt32 (n : Int) : Int := (n + 2147483648) % 4294967296 - 2147483648

/-- Go `len(s)` for a string: its length in bytes. -/
def strLen (s : String) : Nat := s.utf8ByteSize

/-- Go `len(xs)` for a slice of strings, where `none` is the nil slice. -/
def sliceLen (xs : Option (List String)) : Nat :=
  match xs with
  | none => 0
  | some l => l.length

/-- The elements of a slice, the nil slice having none. -/
def sliceElems (xs : Option (List String)) : List String :=
  match xs with
  | none => []
  | some l => l

/-- The fields of `data.Movie` that the checks read (and the fields of the
anonymous `input` struct of `createMovieHandler`). `Year` is an `int32`;
`Runtime` has type `data.Runtime`, declared outside the files at hand and
compared here with the constant 0 only, so it is an integer; `Genres` is a
slice, `none` being nil. -/
structure Movie where
  Title : String
  Year : Int
  Runtime : Int
  Genres : Option (List String)
deriving DecidableEq, Repr

/-- The function `ValidateMovie` of `internal/data/movies.go`; `now` is the
value of `time.Now().Year()`. The eleven calls to `v.Check` in source
order. -/
def ValidateMovie (now : Int) (v : Validator) (movie : Movie) : Validator :=
  let v := v.Check (!(movie.Title == "")) "title" "Must be provided"
  let v := v.Check (!(decide (strLen movie.Title ≤ 500))) "title"
    "Must not be more than 500 bytes long"
  let v := v.Check (!(decide (movie.Runtime < 0))) "runtime" "Must be a positive integer"
  let v := v.Check (!(movie.Runtime == 0)) "runtime" "Must be provided"
  let v := v.Check (!(movie.Year == 0)) "year" "Must be provided"
  let v := v.Check (!(decide (movie.Year < 1888))) "year" "Must be greater than 1888"
  let v := v.Check (!(decide (movie.Year ≥ toInt32 now))) "year" "Must not be in the future"
  let v := v.Check (!(movie.Genres == none)) "genres" "Must be provided"
  let v := v.Check (!(decide (sliceLen movie.Genres ≤ 1))) "genres"
    "Must contain at lest one genre"
  let v := v.Check (!(decide (sliceLen movie.Genres ≥ 5))) "genres"
    "Must not contain more than 5 genres"
  let v := v.Check (Unique (sliceElems movie.Genres)) "genres" "Must not contain duplicates"
  v

/-- The checks of `createMovieHandler` in `cmd/api/movies.go`, run on the
decoded `input` on a validator obtained from `validator.New()`: the eleven
calls to `v.Check` between the decoding and the test of `v.Valid()`. -/
def createMovieHandlerChecks (now : Int) (input : Movie) : Validator :=
  let v := Validator.New
  let v := v.Check (!(input.Title == "")) "title" "Must be provided"
  let v := v.Check (!(decide (strLen input.Title ≤ 500))) "title"
    "Must not be more than 500 bytes long"
  let v := v.Check (!(decide (input.Runtime < 0))) "runtime" "Must be a positive integer"
  let v := v.Check (!(input.Runtime == 0)) "runtime" "Must be provided"
  let v := v.Check (!(input.Year == 0)) "year" "Must be provided"
  let v := v.Check (!(decide (input.Year < 1888))) "year" "Must be greater than 1888"
  let v := v.Check (!(decide (input.Year ≥ toInt32 now))) "year" "Must not be in the future"
  let v := v.Check (!(input.Genres == none)) "genres" "Must be provided"
  let v := v.Check (!(decide (sliceLen input.Genres ≤ 1))) "genres"
    "Must contain at lest one genre"
  let v := v.Check (!(decide (sliceLen input.Genres ≥ 5))) "genres"
    "Must not contain more than 5 genres"
  let v := v.Check (Unique (sliceElems input.Genres)) "genres" "Must not contain duplicates"
  v

/-- One call `v.Check(passed, field, message)`, as data. -/
structure CheckCall where
  passed : Bool
  field : String
  message : String
deriving DecidableEq, Repr

/-- The calls made by `ValidateMovie`, in source order. -/
def movieChecks (now : Int) (movie : Movie) : List CheckCall :=
  [ ⟨!(movie.Title == ""), "title", "Must be provided"⟩,
    ⟨!(decide (strLen movie.Title ≤ 500)), "title", "Must not be more than 500 bytes long"⟩,
    ⟨!(decide (movie.Runtime < 0)), "runtime", "Must be a positive integer"⟩,
    ⟨!(movie.Runtime == 0), "runtime", "Must be provided"⟩,
    ⟨!(movie.Year == 0), "year", "Must be provided"⟩,
    ⟨!(decide (movie.Year < 1888)), "year", "Must be greater than 1888"⟩,
    ⟨!(decide (movie.Year ≥ toInt32 now)), "year", "Must not be in the future"⟩,
    ⟨!(movie.Genres == none), "genres", "Must be provided"⟩,
    ⟨!(decide (sliceLen movie.Genres ≤ 1)), "genres", "Must contain at lest one genre"⟩,
    ⟨!(decide (sliceLen movie.Genres ≥ 5)), "genres", "Must not contain more than 5 genres"⟩,
    ⟨Unique (sliceElems movie.Genres), "genres", "Must not contain duplicates"⟩ ]

/-- Running a sequence of calls to `Check`, first to last. -/
def runChecks (v : Validator) (cs : List CheckCall) : Validator :=
  cs.foldl (fun acc c => acc.Check c.passed c.field c.message) v

/-- The message of the first call in `cs` that fails on `field`, if any. -/
def firstFailure (cs : List CheckCall) (field : String) : Option String :=
  (cs.find? (fun c => !c.passed && c.field == field)).map CheckCall.message

/-- The rules for a movie as the messages and comments of `ValidateMovie`
word them; `now` is the current year. -/
def documentedRules (now : Int) (movie : Movie) : Prop :=
  movie.Title ≠ "" ∧ strLen movie.Title ≤ 500 ∧
  0 < movie.Runtime ∧
  1888 ≤ movie.Year ∧ movie.Year ≤ now ∧
  movie.Genres ≠ none ∧ 1 ≤ sliceLen movie.Genres ∧ sliceLen movie.Genres ≤ 5 ∧
  (sliceElems movie.Genres).Nodup

/-- What the conditions of `ValidateMovie` accept; `now` is the current
year. -/
def acceptedByChecks (now : Int) (movie : Movie) : Prop :=
  500 < strLen movie.Title ∧
  0 < movie.Runtime ∧
  1888 ≤ movie.Year ∧ movie.Year < toInt32 now ∧
  movie.Genres ≠ none ∧ 2 ≤ sliceLen movie.Genres ∧ sliceLen movie.Genres ≤ 4 ∧
  (sliceElems movie.Genres).Nodup

/-! ## Go errors and strings -/

/-- The error values that reach the classification of `readJSON`: the
errors of `encoding/json`, the two sentinels of `io`, the error of
`http.MaxBytesReader`, an error made by `errors.New` or by `fmt.Errorf`
without `%w` (its text), and an error that wraps another one. The type of an
`InvalidUnmarshalError` is absent (`none`) or given by whether it is a
pointer type and by its name. -/
inductive GoError where
  | syntaxError (msg : String) (Offset : Int)
  | unexpectedEOF
  | unmarshalTypeError (Value typ Struct Field : String) (Offset : Int)
  | eof
  | invalidUnmarshalError (typ : Option (Bool × String))
  | maxBytesError (Limit : Int)
  | errorString (text : String)
  | wrapError (text : String) (inner : GoError)
deriving DecidableEq, Repr

namespace GoError

/-- The method `Error()` of each error value. -/
def Error : GoError → String
  | syntaxError msg _ => msg
  | unexpectedEOF => "unexpected EOF"
  | unmarshalTypeError value typ struct field _ =>
      if struct ≠ "" ∨ field ≠ "" then
        "json: cannot unmarshal " ++ value ++ " into Go struct field " ++ struct ++ "." ++ field
          ++ " of type " ++ typ
      else "json: cannot unmarshal " ++ value ++ " into Go value of type " ++ typ
  | eof => "EOF"
  | invalidUnmarshalError none => "json: Unmarshal(nil)"
  | invalidUnmarshalError (some (isPointer, name)) =>
      if !isPointer then "json: Unmarshal(non-pointer " ++ name ++ ")"
      else "json: Unmarshal(nil " ++ name ++ ")"
  | maxBytesError _ => "http: request body too large"
  | errorString text => text
  | wrapError text _ => text

/-- Go `errors.As(err, &syntaxError)`: the offset of the first
`*json.SyntaxError` in the chain of `err`. -/
def asSyntaxError : GoError → Option Int
  | syntaxError _ offset => some offset
  | wrapError _ inner => asSyntaxError inner
  | _ => none

/-- Go `errors.As(err, &unmarshalTypeError)`: the field and the offset of
the first `*json.UnmarshalTypeError` in the chain of `err`. -/
def asUnmarshalTypeError : GoError → Option (String × Int)
  | unmarshalTypeError _ _ _ field offset => some (field, offset)
  | wrapError _ inner => asUnmarshalTypeError inner
  | _ => none

/-- Go `errors.As(err, &invalidUnmarshalError)`: whether the chain of `err`
holds a `*json.InvalidUnmarshalError`. -/
def asInvalidUnmarshalError : GoError → Bool
  | invalidUnmarshalError _ => true
  | wrapError _ inner => asInvalidUnmarshalError inner
  | _ => false

/-- Go `errors.Is(err, target)`: whether `err` or an error it wraps is
`target`. -/
def errorsIs : GoError → GoError → Bool
  | wrapError text inner, target =>
      decide (wrapError text inner = target) || errorsIs inner target
  | err, target => decide (err = target)

end GoError

/-- Go `strings.HasPrefix(s, p)`: whether `s` begins with `p`, byte by byte
in Go and character by character here, which is the same test on strings
that are valid UTF-8. -/
def HasPrefix (s p : String) : Bool := p.data.isPrefixOf s.data

/-- Go `strings.TrimPrefix(s, p)`: `s` without the leading `p` when it
starts with it, `s` unchanged otherwise. -/
def TrimPrefix (s p : String) : String :=
  if HasPrefix s p then ⟨s.data.drop p.data.length⟩ else s

/-- The verb `%d` of `fmt` on an integer: its decimal digits, after a minus
sign when it is negative. -/
def fmtInt (n : Int) : String :=
  match n with
  | Int.ofNat k => Nat.repr k
  | Int.negSucc k => "-" ++ Nat.repr (k + 1)

/-! ## `readJSON` -/

/-- How a call ends: it returns an error value (`none` being nil) or it
panics with a value. -/
inductive Result where
  | returned (err : Option GoError)
  | panicked (value : GoError)
deriving DecidableEq, Repr

/-- The function `readJSON` of `cmd/api/helpers.go`. The decoder `dec` over
the bounded body is the collaborator: `first` is what `dec.Decode(dst)`
returns (line 55) and `second` what `dec.Decode(&struct{}{})` returns (line
98), `none` being nil. `strconvQuote` is Go's `strconv.Quote`, through which
the verb `%q` renders a string. -/
def readJSON (strconvQuote : String → String) (first second : Option GoError) : Result :=
  let maxBytes : Int := 1048576
  match first with
  | some err =>
    match err.asSyntaxError with
    | some offset =>
      .returned (some (.errorString
        ("body contains badly-formated JSON (at character " ++ fmtInt offset ++ ").")))
    | none =>
    if err.errorsIs .unexpectedEOF then
      .returned (some (.errorString "Body contains badly-formated JSON."))
    else
    match err.asUnmarshalTypeError with
    | some (field, offset) =>
      if field ≠ "" then
        .returned (some (.errorString
          ("Body contains incorrect JSON type for field " ++ strconvQuote field ++ ".")))
      else
        .returned (some (.errorString
          ("Body contains incorrect JSON type (at chracter " ++ fmtInt offset ++ ")")))
    | none =>
    if err.errorsIs .eof then
      .returned (some (.errorString "Body must not be empty."))
    else if HasPrefix err.Error "json: unknown field " then
      let fieldName := TrimPrefix err.Error "json: unkown field"
      .returned (some (.errorString ("Body contains unkown key " ++ fieldName)))
    else if err.Error = "http: request body too large" then
      .returned (some (.errorString
        ("Body must not be larger than " ++ fmtInt maxBytes ++ " bytes")))
    else if err.asInvalidUnmarshalError then
      .panicked err
    else
      .returned (some err)
  | none =>
    if second ≠ some .eof then
      .returned (some (.errorString "Body must only contain a single JSON value."))
    else
      .returned none

/-- The error `fmt.Errorf("json: unknown field %q", key)` with which the
strict decoder rejects the key `key`. -/
def unknownFieldError (strconvQuote : String → String) (key : String) : GoError :=
  .errorString ("json: unknown field " ++ strconvQuote key)

/-- What `strconv.Quote` makes of a string of printable ASCII characters
other than the double quote and the backslash: the string between double
quotes. -/
def quotePlain (s : String) : String := "\"" ++ s ++ "\""

/-! ## The decoder over the bounded body

The collaborators of `readJSON` from Go's library, as far as they decide what
the two calls to `Decode` return: the reader made by `http.MaxBytesReader`,
and the framing of `json.Decoder`, which cuts the stream into JSON values
with the scanner of `encoding/json`. A body is the list of its bytes, a byte
being the character of its code. -/

/-- The opcodes a scanner step returns. -/
inductive Op where
  | scanContinue | scanBeginLiteral | scanBeginObject | scanObjectKey | scanObjectValue
  | scanEndObject | scanBeginArray | scanArrayValue | scanEndArray | scanSkipSpace
  | scanEnd | scanError
deriving DecidableEq, Repr

/-- The entries of the scanner's stack `parseState`. -/
inductive ParseState where
  | parseObjectKey | parseObjectValue | parseArrayValue
deriving DecidableEq, Repr

/-- The step functions of the scanner, by name. -/
inductive Step where
  | stateBeginValueOrEmpty | stateBeginValue | stateBeginStringOrEmpty | stateBeginString
  | stateEndValue | stateEndTop | stateInString | stateInStringEsc
  | stateInStringEscU | stateInStringEscU1 | stateInStringEscU12 | stateInStringEscU123
  | stateNeg | state1 | state0 | stateDot | stateDot0 | stateE | stateESign | stateE0
  | stateT | stateTr | stateTru | stateF | stateFa | stateFal | stateFals
  | stateN | stateNu | stateNul | stateError
deriving DecidableEq, Repr

/-- The scanner of `encoding/json`: the next step function, whether the
top-level value has ended, the stack of open objects and arrays (innermost
first), the error found, and the count of bytes consumed. -/
structure scanner where
  step : Step
  endTop : Bool
  parseState : List ParseState
  err : Option GoError
  bytes : Int
deriving DecidableEq, Repr

/-- The limit `maxNestingDepth` of the scanner. -/
def maxNestingDepth : Nat := 10000

/-- Go `isSpace` of the scanner. -/
def isSpace (c : Char) : Bool :=
  decide (c ≤ ' ') && (c == ' ' || c == '\t' || c == '\r' || c == '\n')

/-- Go `quoteChar`: a byte as it appears in a syntax error's message. -/
def quoteChar (strconvQuote : String → String) (c : Char) : String :=
  if c = '\'' then "'\\''"
  else if c = '"' then "'\"'"
  else "'" ++ String.mk ((strconvQuote (String.singleton c)).data.drop 1).dropLast ++ "'"

namespace scanner

/-- Go `scanner.reset`. -/
def reset (s : scanner) : scanner :=
  { s with step := .stateBeginValue, parseState := [], err := none, endTop := false }

/-- Go `scanner.error`: record a syntax error at the current count of bytes. -/
def error (q : String → String) (s : scanner) (c : Char) (context : String) : scanner × Op :=
  ({ s with step := .stateError,
            err := some (.syntaxError ("invalid character " ++ quoteChar q c ++ " " ++ context)
              s.bytes) },
   .scanError)

/-- Go `scanner.pushParseState`. -/
def pushParseState (q : String → String) (s : scanner) (c : Char) (newParseState : ParseState)
    (successState : Op) : scanner × Op :=
  let s := { s with parseState := newParseState :: s.parseState }
  if s.parseState.length ≤ maxNestingDepth then (s, successState)
  else error q s c "exceeded max depth"

/-- Go `scanner.popParseState`. -/
def popParseState (s : scanner) : scanner :=
  let rest := s.parseState.tail
  if rest.length = 0 then { s with parseState := rest, step := .stateEndTop, endTop := true }
  else { s with parseState := rest, step := .stateEndValue }

end scanner

/-- Go `stateEndTop`. -/
def stateEndTop (q : String → String) (s : scanner) (c : Char) : scanner × Op :=
  if !isSpace c then ((scanner.error q s c "after top-level value").1, .scanEnd)
  else (s, .scanEnd)

/-- Go `stateEndValue`. -/
def stateEndValue (q : String → String) (s : scanner) (c : Char) : scanner × Op :=
  match s.parseState with
  | [] => stateEndTop q { s with step := .stateEndTop, endTop := true } c
  | ps :: rest =>
    if isSpace c then ({ s with step := .stateEndValue }, .scanSkipSpace)
    else
      match ps with
      | .parseObjectKey =>
        if c = ':' then
          ({ s with parseState := .parseObjectValue :: rest, step := .stateBeginValue },
            .scanObjectKey)
        else scanner.error q s c "after object key"
      | .parseObjectValue =>
        if c = ',' then
          ({ s with parseState := .parseObjectKey :: rest, step := .stateBeginString },
            .scanObjectValue)
        else if c = '}' then (s.popParseState, .scanEndObject)
        else scanner.error q s c "after object key:value pair"
      | .parseArrayValue =>
        if c = ',' then ({ s with step := .stateBeginValue }, .scanArrayValue)
        else if c = ']' then (s.popParseState, .scanEndArray)
        else scanner.error q s c "after array element"

/-- Go `stateBeginValue`. -/
def stateBeginValue (q : String → String) (s : scanner) (c : Char) : scanner × Op :=
  if isSpace c then (s, .scanSkipSpace)
  else if c = '{' then
    scanner.pushParseState q { s with step := .stateBeginStringOrEmpty } c .parseObjectKey
      .scanBeginObject
  else if c = '[' then
    scanner.pushParseState q { s with step := .stateBeginValueOrEmpty } c .parseArrayValue
      .scanBeginArray
  else if c = '"' then ({ s with step := .stateInString }, .scanBeginLiteral)
  else if c = '-' then ({ s with step := .stateNeg }, .scanBeginLiteral)
  else if c = '0' then ({ s with step := .state0 }, .scanBeginLiteral)
  else if c = 't' then ({ s with step := .stateT }, .scanBeginLiteral)
  else if c = 'f' then ({ s with step := .stateF }, .scanBeginLiteral)
  else if c = 'n' then ({ s with step := .stateN }, .scanBeginLiteral)
  else if '1' ≤ c ∧ c ≤ '9' then ({ s with step := .state1 }, .scanBeginLiteral)
  else scanner.error q s c "looking for beginning of value"

/-- Go `stateBeginValueOrEmpty`. -/
def stateBeginValueOrEmpty (q : String → String) (s : scanner) (c : Char) : scanner × Op :=
  if isSpace c then (s, .scanSkipSpace)
  else if c = ']' then stateEndValue q s c
  else stateBeginValue q s c

/-- Go `stateBeginString`. -/
def stateBeginString (q : String → String) (s : scanner) (c : Char) : scanner × Op :=
  if isSpace c then (s, .scanSkipSpace)
  else if c = '"' then ({ s with step := .stateInString }, .scanBeginLiteral)
  else scanner.error q s c "looking for beginning of object key string"

/-- Go `stateBeginStringOrEmpty`. -/
def stateBeginStringOrEmpty (q : String → String) (s : scanner) (c : Char) : scanner × Op :=
  if isSpace c then (s, .scanSkipSpace)
  else if c = '}' then
    stateEndValue q { s with parseState := .parseObjectValue :: s.parseState.tail } c
  else stateBeginString q s c

/-- Go `stateInString`. -/
def stateInString (q : String → String) (s : scanner) (c : Char) : scanner × Op :=
  if c = '"' then ({ s with step := .stateEndValue }, .scanContinue)
  else if c = '\\' then ({ s with step := .stateInStringEsc }, .scanContinue)
  else if c.toNat < 0x20 then scanner.error q s c "in string literal"
  else (s, .scanContinue)

/-- Go `stateInStringEsc`. -/
def stateInStringEsc (q : String → String) (s : scanner) (c : Char) : scanner × Op :=
  if c = 'b' ∨ c = 'f' ∨ c = 'n' ∨ c = 'r' ∨ c = 't' ∨ c = '\\' ∨ c = '/'
      ∨ c = '"' then
    ({ s with step := .stateInString }, .scanContinue)
  else if c = 'u' then ({ s with step := .stateInStringEscU }, .scanContinue)
  else scanner.error q s c "in string escape code"

/-- The test of a hexadecimal digit in the four states after `\u`. -/
def isHexDigit (c : Char) : Bool :=
  decide ('0' ≤ c ∧ c ≤ '9' ∨ 'a' ≤ c ∧ c ≤ 'f' ∨ 'A' ≤ c ∧ c ≤ 'F')

/-- Go `stateInStringEscU`, `stateInStringEscU1`, `stateInStringEscU12` and
`stateInStringEscU123`: on a hexadecimal digit go to `next`. -/
def stateInStringEscHex (q : String → String) (next : Step) (s : scanner) (c : Char) :
    scanner × Op :=
  if isHexDigit c then ({ s with step := next }, .scanContinue)
  else scanner.error q s c "in \\u hexadecimal character escape"

/-- Go `stateNeg`. -/
def stateNeg (q : String → String) (s : scanner) (c : Char) : scanner × Op :=
  if c = '0' then ({ s with step := .state0 }, .scanContinue)
  else if '1' ≤ c ∧ c ≤ '9' then ({ s with step := .state1 }, .scanContinue)
  else scanner.error q s c "in numeric literal"

/-- Go `state0`. -/
def state0 (q : String → String) (s : scanner) (c : Char) : scanner × Op :=
  if c = '.' then ({ s with step := .stateDot }, .scanContinue)
  else if c = 'e' ∨ c = 'E' then ({ s with step := .stateE }, .scanContinue)
  else stateEndValue q s c

/-- Go `state1`. -/
def state1 (q : String → String) (s : scanner) (c : Char) : scanner × Op :=
  if '0' ≤ c ∧ c ≤ '9' then ({ s with step := .state1 }, .scanContinue)
  else state0 q s c

/-- Go `stateDot`. -/
def stateDot (q : String → String) (s : scanner) (c : Char) : scanner × Op :=
  if '0' ≤ c ∧ c ≤ '9' then ({ s with step := .stateDot0 }, .scanContinue)
  else scanner.error q s c "after decimal point in numeric literal"

/-- Go `stateDot0`. -/
def stateDot0 (q : String → String) (s : scanner) (c : Char) : scanner × Op :=
  if '0' ≤ c ∧ c ≤ '9' then (s, .scanContinue)
  else if c = 'e' ∨ c = 'E' then ({ s with step := .stateE }, .scanContinue)
  else stateEndValue q s c

/-- Go `stateESign`. -/
def stateESign (q : String → String) (s : scanner) (c : Char) : scanner × Op :=
  if '0' ≤ c ∧ c ≤ '9' then ({ s with step := .stateE0 }, .scanContinue)
  else scanner.error q s c "in exponent of numeric literal"

/-- Go `stateE`. -/
def stateE (q : String → String) (s : scanner) (c : Char) : scanner × Op :=
  if c = '+' ∨ c = '-' then ({ s with step := .stateESign }, .scanContinue)
  else stateESign q s c

/-- Go `stateE0`. -/
def stateE0 (q : String → String) (s : scanner) (c : Char) : scanner × Op :=
  if '0' ≤ c ∧ c ≤ '9' then (s, .scanContinue)
  else stateEndValue q s c

/-- The states inside the literals `true`, `false` and `null`: on the byte
`want` go to `next`, and fail with `context` on another byte. -/
def stateLiteral (q : String → String) (want : Char) (next : Step) (context : String)
    (s : scanner) (c : Char) : scanner × Op :=
  if c = want then ({ s with step := next }, .scanContinue)
  else scanner.error q s c context

/-- The call `s.step(s, c)`: the step function that `s.step` names, run on
the byte `c`. -/
def scanner.run (q : String → String) (s : scanner) (c : Char) : scanner × Op :=
  match s.step with
  | .stateBeginValueOrEmpty => stateBeginValueOrEmpty q s c
  | .stateBeginValue => stateBeginValue q s c
  | .stateBeginStringOrEmpty => stateBeginStringOrEmpty q s c
  | .stateBeginString => stateBeginString q s c
  | .stateEndValue => stateEndValue q s c
  | .stateEndTop => stateEndTop q s c
  | .stateInString => stateInString q s c
  | .stateInStringEsc => stateInStringEsc q s c
  | .stateInStringEscU => stateInStringEscHex q .stateInStringEscU1 s c
  | .stateInStringEscU1 => stateInStringEscHex q .stateInStringEscU12 s c
  | .stateInStringEscU12 => stateInStringEscHex q .stateInStringEscU123 s c
  | .stateInStringEscU123 => stateInStringEscHex q .stateInString s c
  | .stateNeg => stateNeg q s c
  | .state1 => state1 q s c
  | .state0 => state0 q s c
  | .stateDot => stateDot q s c
  | .stateDot0 => stateDot0 q s c
  | .stateE => stateE q s c
  | .stateESign => stateESign q s c
  | .stateE0 => stateE0 q s c
  | .stateT => stateLiteral q 'r' .stateTr "in literal true (expecting 'r')" s c
  | .stateTr => stateLiteral q 'u' .stateTru "in literal true (expecting 'u')" s c
  | .stateTru => stateLiteral q 'e' .stateEndValue "in literal true (expecting 'e')" s c
  | .stateF => stateLiteral q 'a' .stateFa "in literal false (expecting 'a')" s c
  | .stateFa => stateLiteral q 'l' .stateFal "in literal false (expecting 'l')" s c
  | .stateFal => stateLiteral q 's' .stateFals "in literal false (expecting 's')" s c
  | .stateFals => stateLiteral q 'e' .stateEndValue "in literal false (expecting 'e')" s c
  | .stateN => stateLiteral q 'u' .stateNu "in literal null (expecting 'u')" s c
  | .stateNu => stateLiteral q 'l' .stateNul "in literal null (expecting 'l')" s c
  | .stateNul => stateLiteral q 'l' .stateEndValue "in literal null (expecting 'l')" s c
  | .stateError => (s, .scanError)

/-- A reader: the bytes it still delivers, and the error with which its
`Read` ends once they are delivered (`io.EOF` at the end of the data), and
ends again at every later call. -/
structure Reader where
  data : List Char
  final : GoError
deriving DecidableEq, Repr

/-- Go `http.MaxBytesReader(w, r.Body, n)` on a body that ends with
`io.EOF`: the reader delivers the body when it has at most `n` bytes, and
otherwise its first `n` bytes, after which `Read` fails with the
`*http.MaxBytesError` whose text is "http: request body too large". -/
def MaxBytesReader (body : List Char) (n : Nat) : Reader :=
  if body.length ≤ n then ⟨body, .eof⟩ else ⟨body.take n, .maxBytesError n⟩

/-- The destination of a decode, as the decoder sees it: what
`d.unmarshal(v)` returns for the text of one JSON value, `none` being nil.
The strictness set by `DisallowUnknownFields` is part of it. -/
abbrev Target := List Char → Option GoError

/-- A destination that receives every JSON value, such as a
`*interface{}`. -/
def anyValue : Target := fun _ => none

/-- A `json.Decoder` used through `Decode` only: the reader with the bytes
not yet consumed, the scanner, and the error that a failed read or scan
leaves in `dec.err`. -/
structure Decoder where
  r : Reader
  scan : scanner
  err : Option GoError
deriving DecidableEq, Repr

/-- Go `json.NewDecoder(r)`. -/
def NewDecoder (r : Reader) : Decoder :=
  ⟨r, ⟨.stateBeginValue, false, [], none, 0⟩, none⟩

/-- The loop of `Decoder.readValue` over the bytes not yet consumed:
`value` holds, last first, the bytes of the value read so far. The result
is the value, the error, the bytes left and the scanner. When the bytes are
used up the next `Read` ends with `final`: on `io.EOF` the value is complete
if a space would end it, and otherwise the error is `io.ErrUnexpectedEOF`
when a non-space byte was read and `io.EOF` when none was. -/
def readValueLoop (q : String → String) (final : GoError) :
    List Char → scanner → List Char → List Char × Option GoError × List Char × scanner
  | [], s, value =>
    if final = .eof then
      let (s1, op) := s.run q ' '
      if op = .scanEnd then (value.reverse, none, [], s1)
      else if value.any (fun c => !isSpace c) then ([], some .unexpectedEOF, [], s1)
      else ([], some .eof, [], s1)
    else ([], some final, [], s)
  | c :: rest, s, value =>
    let s0 := { s with bytes := s.bytes + 1 }
    let (s1, op) := s0.run q c
    match op with
    | .scanEnd => (value.reverse, none, c :: rest, { s1 with bytes := s1.bytes - 1 })
    | .scanEndObject | .scanEndArray =>
      let (s2, op2) := stateEndValue q s1 ' '
      if op2 = .scanEnd then ((c :: value).reverse, none, rest, s2)
      else readValueLoop q final rest s1 (c :: value)
    | .scanError => ([], s1.err, c :: rest, s1)
    | _ => readValueLoop q final rest s1 (c :: value)

/-- Go `Decoder.readValue`: reset the scanner and read one value. -/
def Decoder.readValue (q : String → String) (dec : Decoder) :
    List Char × Option GoError × List Char × scanner :=
  readValueLoop q dec.r.final dec.r.data dec.scan.reset []

/-- Go `Decoder.Decode(v)`: the error left by an earlier call if there is
one; otherwise read one value, and return the error of the read, which stays
in `dec.err`, or what unmarshalling the value into `v` returns. -/
def Decoder.Decode (q : String → String) (dec : Decoder) (v : Target) :
    Option GoError × Decoder :=
  match dec.err with
  | some e => (some e, dec)
  | none =>
    match Decoder.readValue q dec with
    | (_, some e, rest, s) => (some e, ⟨⟨rest, dec.r.final⟩, s, some e⟩)
    | (value, none, rest, s) => (v value, ⟨⟨rest, dec.r.final⟩, s, none⟩)

/-- The function `readJSON` on a request body: the decoder over the body
bounded to 1,048,576 bytes decodes into `dst` and then, as `readJSON` does,
into the empty struct, whose unmarshalling is `emptyStruct`; `readJSON`
classifies the two results. -/
def readJSONOfBody (q : String → String) (dst emptyStruct : Target) (body : List Char) :
    Result :=
  let maxBytes : Nat := 1048576
  let dec := NewDecoder (MaxBytesReader body maxBytes)
  let (first, dec) := dec.Decode q dst
  let (second, _) := dec.Decode q emptyStruct
  readJSON q first second

/-- The body `{"title":"A"} {"title":"B"}`: two JSON values. -/
def twoObjectsBody : List Char :=
  "\x7b\"title\":\"A\"\x7d \x7b\"title\":\"B\"\x7d".data

/-- The bytes ` {"title":"B"}` that follow the first value of
`twoObjectsBody`. -/
def secondObjectBytes : List Char := " \x7b\"title\":\"B\"\x7d".data

/-- The body `{"title":"A"}` followed by a newline. -/
def objectNewlineBody : List Char := "\x7b\"title\":\"A\"\x7d\n".data

/-- The body `{"title":"A"`, which stops inside its value. -/
def truncatedObjectBody : List Char := "\x7b\"title\":\"A\"".data

/-! ## `writeJSON` -/

/-- Go `http.Header`: a map from header names to their values. -/
abbrev Header := GoMap (List String)

/-- Go `delete(m, k)` on a map. -/
def GoMap.delete {V : Type} (m : GoMap V) (k : String) : GoMap V :=
  m.filter (fun kv => !(kv.1 == k))

/-- Go `Header.get(key)` of `net/http`, the lookup without
canonicalisation: the first value stored under `key`, or "". -/
def Header.getValue (h : Header) (key : String) : String :=
  match GoMap.get h key with
  | some (v :: _) => v
  | _ => ""

/-- Go `strconv.ParseInt(s, 10, 64)`: the value of an optional sign followed
by decimal digits when it fits 64 bits, and `none` for the error. -/
def ParseInt (s : String) : Option Int :=
  let signed : Bool × List Char :=
    match s.data with
    | '+' :: rest => (false, rest)
    | '-' :: rest => (true, rest)
    | cs => (false, cs)
  if signed.2 = [] then none
  else if signed.2.all (fun c => decide ('0' ≤ c ∧ c ≤ '9')) then
    let un : Int := signed.2.foldl (fun a c => 10 * a + ((c.toNat - '0'.toNat : Nat) : Int)) 0
    let v : Int := if signed.1 then -un else un
    if -9223372036854775808 ≤ v ∧ v ≤ 9223372036854775807 then some v else none
  else none

/-- Go `checkWriteHeaderCode` of `net/http`: a panic on a code below 100 or
above 999, with the text of the panic as the error. -/
def checkWriteHeaderCode (code : Int) : Except String Unit :=
  if code < 100 ∨ code > 999 then .error ("invalid WriteHeader code " ++ fmtInt code)
  else .ok ()

/-- Go `bodyAllowedForStatus` of `net/http`: no body for the codes 100 to
199, for 204 and for 304. -/
def bodyAllowedForStatus (status : Int) : Bool :=
  if 100 ≤ status ∧ status ≤ 199 then false
  else if status = 204 then false
  else if status = 304 then false
  else true

/-- The response of Go's HTTP server behind the `http.ResponseWriter` that a
handler receives: the header map returned by `Header()`, the status of the
response (`none` until the header is written), the Content-Length that the
header map declared when the header was written, the count of bytes
accepted by `Write`, the informational 1xx headers sent, and the body. -/
structure ResponseWriter where
  header : Header
  status : Option Int
  contentLength : Option Int
  written : Int
  informational : List Int
  body : List Char
deriving DecidableEq, Repr

namespace ResponseWriter

/-- The response as a handler receives it, over the header map `header`:
nothing written yet. -/
def new (header : Header) : ResponseWriter := ⟨header, none, none, 0, [], []⟩

/-- Go `w.WriteHeader(code)` of the server's response, the error being a
panic. A call after the header was written changes nothing; a code outside
100..999 panics; a 1xx code other than 101 is sent as an informational
header and leaves the response open; any other code becomes the status, and
a Content-Length in the header map is recorded when it is a non-negative
integer and deleted otherwise. -/
def WriteHeader (w : ResponseWriter) (code : Int) : Except String ResponseWriter :=
  match w.status with
  | some _ => .ok w
  | none =>
    match checkWriteHeaderCode code with
    | .error value => .error value
    | .ok _ =>
      if 100 ≤ code ∧ code ≤ 199 ∧ code ≠ 101 then
        .ok { w with informational := w.informational ++ [code] }
      else
        let w := { w with status := some code }
        let cl := w.header.getValue "Content-Length"
        if cl ≠ "" then
          match ParseInt cl with
          | some v =>
            if v ≥ 0 then .ok { w with contentLength := some v }
            else .ok { w with header := w.header.delete "Content-Length" }
          | none => .ok { w with header := w.header.delete "Content-Length" }
        else .ok w

/-- Go `w.Write(data)` of the server's response, the error being a panic and
the returned count and error, which `writeJSON` ignores, left out. The header
is written with status 200 when it was not written yet; then the bytes are
dropped when the status allows no body, or when they take the count of
bytes past the declared Content-Length, and go to the body otherwise. -/
def Write (w : ResponseWriter) (data : List Char) : Except String ResponseWriter :=
  let started : Except String ResponseWriter :=
    match w.status with
    | none => w.WriteHeader 200
    | some _ => .ok w
  match started with
  | .error value => .error value
  | .ok w =>
    if data.length = 0 then .ok w
    else
      match w.status with
      | none => .error ""
      | some status =>
        if !bodyAllowedForStatus status then .ok w
        else
          let w := { w with written := w.written + data.length }
          match w.contentLength with
          | some cl =>
            if w.written > cl then .ok w else .ok { w with body := w.body ++ data }
          | none => .ok { w with body := w.body ++ data }

end ResponseWriter

/-- How a call of `writeJSON` ends: it returns an error value (`none` being
nil) or it panics with a value, and leaves the response `w`. -/
inductive WriteOutcome where
  | returned (w : ResponseWriter) (err : Option GoError)
  | panicked (w : ResponseWriter) (value : String)
deriving DecidableEq, Repr

/-- The function `writeJSON` of `cmd/api/helpers.go`. `MarshalIndent` is
Go's `json.MarshalIndent` on envelopes, called with the prefix "" and the
indent "\t"; `headers` is ranged over in the order of the list;
`Header().Set` writes the key "Content-Type", which is in canonical form,
with the one value; a panic of `WriteHeader` or `Write` ends the call. -/
def writeJSON {Envelope : Type}
    (MarshalIndent : Envelope → String → String → Except GoError (List Char))
    (w : ResponseWriter) (status : Int) (data : Envelope) (headers : Header) :
    WriteOutcome :=
  match MarshalIndent data "" "\t" with
  | .error err => .returned w (some err)
  | .ok js =>
    let js := js ++ ['\n']
    let w := headers.foldl (fun w kv => { w with header := w.header.set kv.1 kv.2 }) w
    let w := { w with header := w.header.set "Content-Type" ["application/json"] }
    match w.WriteHeader status with
    | .error value => .panicked w value
    | .ok w =>
      match w.Write js with
      | .error value => .panicked w value
      | .ok w => .returned w none

/-- An encoder that yields `{}`, the indented encoding of an envelope
without keys. -/
def encodeEmptyObject : Unit → String → String → Except GoError (List Char) :=
  fun _ _ _ => .ok ['{', '}']

/-- A scanner waits for a value or for an object key when every space
leaves it as it is. -/
def scanner.waits (s : scanner) : Prop :=
  s.step = .stateBeginValue ∨ s.step = .stateBeginStringOrEmpty ∨ s.step = .stateBeginString ∨
    s.step = .stateBeginValueOrEmpty

/-- An error is a scanner's: none, or a syntax error. -/
def scannerErr (e : Option GoError) : Prop := e = none ∨ ∃ m o, e = some (.syntaxError m o)

/-! ## Lemmas on maps and on the accumulator -/

theorem GoMap.get_set_self {V : Type} (m : GoMap V) (k : String) (v : V) :
    (m.set k v).get k = some v := by
  induction m with
  | nil => simp [GoMap.set, GoMap.get]
  | cons p rest ih =>
    obtain ⟨k', v'⟩ := p
    by_cases h : k' = k
    · simp [GoMap.set, GoMap.get, h]
    · simp [GoMap.set, GoMap.get, h, ih]

theorem GoMap.get_set_ne {V : Type} (m : GoMap V) (k k' : String) (v : V) (h : k ≠ k') :
    (m.set k v).get k' = m.get k' := by
  induction m with
  | nil => simp [GoMap.set, GoMap.get, h]
  | cons p rest ih =>
    obtain ⟨k₁, v₁⟩ := p
    by_cases h₁ : k₁ = k
    · subst h₁
      simp [GoMap.set, GoMap.get, h]
    · simp [GoMap.set, GoMap.get, h₁, ih]

theorem GoMap.get_eq_none_iff {V : Type} (m : GoMap V) (k : String) :
    m.get k = none ↔ k ∉ m.keys := by
  induction m with
  | nil => simp [GoMap.get, GoMap.keys]
  | cons p rest ih =>
    obtain ⟨k₁, v₁⟩ := p
    by_cases h₁ : k₁ = k
    · simp [GoMap.get, GoMap.keys, h₁]
    · have h₂ : ¬ k = k₁ := fun e => h₁ e.symm
      simp only [GoMap.get, h₁, if_false, ih]
      simp [GoMap.keys, h₂]

theorem GoMap.set_of_get_none {V : Type} (m : GoMap V) (k : String) (v : V)
    (h : m.get k = none) : m.set k v = m ++ [(k, v)] := by
  induction m with
  | nil => simp [GoMap.set]
  | cons p rest ih =>
    obtain ⟨k₁, v₁⟩ := p
    by_cases h₁ : k₁ = k
    · simp [GoMap.get, h₁] at h
    · simp only [GoMap.get, h₁, if_false] at h
      simp [GoMap.set, h₁, ih h]

theorem GoMap.keys_set {V : Type} (m : GoMap V) (k : String) (v : V) :
    (m.set k v).keys = if k ∈ m.keys then m.keys else m.keys ++ [k] := by
  induction m with
  | nil => simp [GoMap.set, GoMap.keys]
  | cons p rest ih =>
    obtain ⟨k₁, v₁⟩ := p
    by_cases h₁ : k₁ = k
    · subst h₁
      simp [GoMap.set, GoMap.keys]
    · have h₂ : ¬ k = k₁ := fun e => h₁ e.symm
      simp only [GoMap.keys] at ih
      simp only [GoMap.set, h₁, if_false, GoMap.keys, List.map_cons, ih, List.mem_cons, h₂,
        false_or]
      split <;> simp

theorem GoMap.keys_nodup_set {V : Type} (m : GoMap V) (k : String) (v : V)
    (h : m.keys.Nodup) : (m.set k v).keys.Nodup := by
  rw [GoMap.keys_set]
  split
  · exact h
  · rename_i hk
    exact List.Nodup.append h (List.nodup_singleton k) (by simpa using hk)

theorem GoMap.mem_keys_of_get {V : Type} (m : GoMap V) (k : String) (v : V)
    (h : m.get k = some v) : k ∈ m.keys := by
  by_contra hk
  rw [(GoMap.get_eq_none_iff m k).2 hk] at h
  exact Option.noConfusion h

theorem Validator.Check_keys_nodup (v : Validator) (passed : Bool) (field message : String)
    (h : v.Errors.keys.Nodup) : (v.Check passed field message).Errors.keys.Nodup := by
  unfold Validator.Check
  split
  · exact h
  · split
    · exact h
    · exact GoMap.keys_nodup_set _ _ _ h

theorem Validator.Check_get (v : Validator) (passed : Bool) (field message g : String) :
    (v.Check passed field message).Errors.get g =
      match v.Errors.get g with
      | some x => some x
      | none => if !passed && field == g then some message else none := by
  unfold Validator.Check
  cases passed with
  | true => cases hg : v.Errors.get g <;> simp [hg]
  | false =>
    by_cases hfg : field = g
    · subst hfg
      cases hf : v.Errors.get field with
      | some x => simp [hf]
      | none => simp [hf, GoMap.get_set_self]
    · cases hf : v.Errors.get field with
      | some x => cases hg : v.Errors.get g <;> simp [hf, hg, hfg]
      | none =>
        simp only [Bool.false_eq_true, if_false, GoMap.get_set_ne _ _ _ _ hfg]
        cases hg : v.Errors.get g <;> simp [hfg]

theorem runChecks_keys_nodup (cs : List CheckCall) (v : Validator)
    (h : v.Errors.keys.Nodup) : (runChecks v cs).Errors.keys.Nodup := by
  induction cs generalizing v with
  | nil => exact h
  | cons c rest ih =>
    exact ih _ (Validator.Check_keys_nodup v c.passed c.field c.message h)

theorem runChecks_get (cs : List CheckCall) (v : Validator) (g : String) :
    (runChecks v cs).Errors.get g =
      match v.Errors.get g with
      | some x => some x
      | none => firstFailure cs g := by
  induction cs generalizing v with
  | nil => cases hg : v.Errors.get g <;> simp [runChecks, firstFailure, hg]
  | cons c rest ih =>
    have step : runChecks v (c :: rest) = runChecks (v.Check c.passed c.field c.message) rest :=
      rfl
    rw [step, ih, Validator.Check_get]
    cases hg : v.Errors.get g with
    | some x => rfl
    | none =>
      by_cases hc : (!c.passed && c.field == g) = true
      · simp [firstFailure, List.find?, hc]
      · have hc' : (!c.passed && c.field == g) = false := by simpa using hc
        simp only [hc', Bool.false_eq_true, if_false]
        simp [firstFailure, List.find?, hc']

theorem ValidateMovie_eq_runChecks (now : Int) (v : Validator) (movie : Movie) :
    ValidateMovie now v movie = runChecks v (movieChecks now movie) := rfl

theorem createMovieHandlerChecks_eq (now : Int) (input : Movie) :
    createMovieHandlerChecks now input = ValidateMovie now Validator.New input := rfl

theorem Unique_iff_nodup (l : List String) : Unique l = true ↔ l.Nodup := by
  induction l with
  | nil => simp [Unique]
  | cons x rest ih => simp [Unique, ih]

theorem GoMap.eq_nil_iff_get {V : Type} (m : GoMap V) :
    m = [] ↔ ∀ k, m.get k = none := by
  constructor
  · intro h k
    subst h
    rfl
  · intro h
    cases m with
    | nil => rfl
    | cons p rest =>
      obtain ⟨k, v⟩ := p
      have := h k
      simp [GoMap.get] at this

theorem Validator.Valid_iff_get (v : Validator) :
    v.Valid = true ↔ ∀ k, v.Errors.get k = none := by
  rw [← GoMap.eq_nil_iff_get]
  simp [Validator.Valid, GoMap.len]

theorem firstFailure_eq_none_iff (cs : List CheckCall) :
    (∀ g, firstFailure cs g = none) ↔ ∀ c ∈ cs, c.passed = true := by
  constructor
  · intro h c hc
    have hg := h c.field
    simp only [firstFailure, Option.map_eq_none', List.find?_eq_none] at hg
    have := hg c hc
    simpa using this
  · intro h g
    simp only [firstFailure, Option.map_eq_none', List.find?_eq_none]
    intro c hc
    simp [h c hc]

theorem runChecks_valid_iff (cs : List CheckCall) :
    (runChecks Validator.New cs).Valid = true ↔ ∀ c ∈ cs, c.passed = true := by
  rw [Validator.Valid_iff_get, ← firstFailure_eq_none_iff]
  constructor
  · intro h g
    have := h g
    rw [runChecks_get] at this
    simpa [Validator.New, GoMap.get] using this
  · intro h g
    rw [runChecks_get]
    simpa [Validator.New, GoMap.get] using h g

theorem strLen_pos_of_ne_empty (s : String) (h : 0 < strLen s) : s ≠ "" := by
  intro e
  subst e
  simp [strLen, String.utf8ByteSize, String.utf8ByteSize.go] at h

/-- The reports of `ValidateMovie` on a fresh validator are valid exactly on
the movies that `acceptedByChecks` describes. -/
theorem ValidateMovie_valid_iff (now : Int) (movie : Movie) :
    (ValidateMovie now Validator.New movie).Valid = true ↔ acceptedByChecks now movie := by
  rw [ValidateMovie_eq_runChecks, runChecks_valid_iff]
  simp only [movieChecks, List.mem_cons, List.mem_singleton, forall_eq_or_imp, forall_eq,
    List.not_mem_nil, false_imp_iff, implies_true, and_true, Bool.not_eq_true',
    decide_eq_false_iff_not, beq_eq_false_iff_ne, ne_eq, Unique_iff_nodup, acceptedByChecks]
  constructor
  · rintro ⟨-, h2, h3, h4, h5, h6, h7, h8, h9, h10, h11⟩
    exact ⟨by omega, by omega, by omega, by omega, h8, by omega, by omega, h11⟩
  · rintro ⟨h1, h2, h3, h4, h5, h6, h7, h8⟩
    exact ⟨strLen_pos_of_ne_empty _ (by omega), by omega, by omega, by omega, by omega,
      by omega, by omega, h5, by omega, by omega, h8⟩

/-! ## Lemmas on strings and errors -/

theorem isPrefixOf_append_left (p a b : List Char) (h : p.length ≤ a.length) :
    p.isPrefixOf (a ++ b) = p.isPrefixOf a := by
  induction p generalizing a with
  | nil => simp
  | cons c p ih =>
    cases a with
    | nil => simp at h
    | cons d a =>
      simp only [List.length_cons, Nat.add_le_add_iff_right] at h
      simp [List.isPrefixOf, ih a h]

theorem HasPrefix_append (a b p : String) (h : p.data.length ≤ a.data.length) :
    HasPrefix (a ++ b) p = HasPrefix a p := by
  simp only [HasPrefix, String.data_append]
  exact isPrefixOf_append_left _ _ _ h

theorem unknownFieldError_hasPrefix (q : String → String) (key : String) :
    HasPrefix (unknownFieldError q key).Error "json: unknown field " = true := by
  simp only [unknownFieldError, GoError.Error]
  rw [HasPrefix_append _ _ _ (by decide)]
  decide

theorem unknownFieldError_trimPrefix (q : String → String) (key : String) :
    TrimPrefix (unknownFieldError q key).Error "json: unkown field"
      = (unknownFieldError q key).Error := by
  have h : HasPrefix (unknownFieldError q key).Error "json: unkown field" = false := by
    simp only [unknownFieldError, GoError.Error]
    rw [HasPrefix_append _ _ _ (by decide)]
    decide
  simp [TrimPrefix, h]

theorem invalidUnmarshalError_not_unknown_field (typ : Option (Bool × String)) :
    HasPrefix (GoError.invalidUnmarshalError typ).Error "json: unknown field " = false := by
  match typ with
  | none => decide
  | some (true, name) =>
    simp only [GoError.Error, Bool.not_true, Bool.false_eq_true, if_false, String.append_assoc]
    rw [HasPrefix_append _ _ _ (by decide)]
    decide
  | some (false, name) =>
    simp only [GoError.Error, Bool.not_false, if_true, String.append_assoc]
    rw [HasPrefix_append _ _ _ (by decide)]
    decide

theorem invalidUnmarshalError_not_too_large (typ : Option (Bool × String)) :
    (GoError.invalidUnmarshalError typ).Error ≠ "http: request body too large" := by
  match typ with
  | none => decide
  | some (true, name) =>
    simp only [GoError.Error, Bool.not_true, Bool.false_eq_true, if_false, String.append_assoc]
    intro h
    have := congrArg (fun s : String => s.data.head?) h
    simp [String.data_append] at this
  | some (false, name) =>
    simp only [GoError.Error, Bool.not_false, if_true, String.append_assoc]
    intro h
    have := congrArg (fun s : String => s.data.head?) h
    simp [String.data_append] at this

/-! ## Lemmas on the decoder -/

theorem scanner.run_space (q : String → String) (s : scanner) (c : Char) (hs : s.waits)
    (hc : isSpace c = true) : s.run q c = (s, .scanSkipSpace) := by
  rcases hs with h | h | h | h
  · simp [scanner.run, h, stateBeginValue, hc]
  · simp [scanner.run, h, stateBeginStringOrEmpty, hc]
  · simp [scanner.run, h, stateBeginString, hc]
  · simp [scanner.run, h, stateBeginValueOrEmpty, hc]

/-- Reading spaces only, up to a failure of the reader that is not the end
of the data: the read fails with the reader's error. -/
theorem readValueLoop_spaces_final (q : String → String) (final : GoError) (hf : final ≠ .eof)
    (ws : List Char) (hws : ∀ c ∈ ws, isSpace c = true) (s : scanner) (hs : s.waits)
    (value : List Char) :
    (readValueLoop q final ws s value).2.1 = some final := by
  induction ws generalizing s value with
  | nil => simp [readValueLoop, hf]
  | cons c rest ih =>
    have hc : isSpace c = true := hws c (List.mem_cons_self _ _)
    have hs0 : scanner.waits { s with bytes := s.bytes + 1 } := hs
    have hrun := scanner.run_space q _ c hs0 hc
    simp only [readValueLoop, hrun]
    exact ih (fun d hd => hws d (List.mem_cons_of_mem _ hd)) _ hs0 _

/-- Reading spaces only, up to the end of the data, with nothing but spaces
read before: the read fails with `io.EOF`. -/
theorem readValueLoop_spaces_eof (q : String → String)
    (ws : List Char) (hws : ∀ c ∈ ws, isSpace c = true) (s : scanner)
    (hs : s.step = .stateBeginValue) (value : List Char)
    (hv : ∀ c ∈ value, isSpace c = true) :
    (readValueLoop q .eof ws s value).2.1 = some .eof := by
  induction ws generalizing s value with
  | nil =>
    have hany : (value.any fun c => !isSpace c) = false := by
      rw [List.any_eq_false]
      intro c hc
      simp [hv c hc]
    have hsp : isSpace ' ' = true := by decide
    have hrun := scanner.run_space q s ' ' (Or.inl hs) hsp
    simp [readValueLoop, hrun, hany]
  | cons c rest ih =>
    have hc : isSpace c = true := hws c (List.mem_cons_self _ _)
    have hs0 : ({ s with bytes := s.bytes + 1 } : scanner).step = .stateBeginValue := hs
    have hrun := scanner.run_space q _ c (Or.inl hs0) hc
    simp only [readValueLoop, hrun]
    refine ih (fun d hd => hws d (List.mem_cons_of_mem _ hd)) _ hs0 _ ?_
    intro d hd
    rcases List.mem_cons.1 hd with h | h
    · rw [h]
      exact hc
    · exact hv d h

/-- Reading the empty object: the value is `{}` and the bytes after it are
left in the reader. -/
theorem readValueLoop_empty_object (q : String → String) (final : GoError) (rest : List Char)
    (b : Int) :
    readValueLoop q final ('{' :: '}' :: rest) ⟨.stateBeginValue, false, [], none, b⟩ []
      = (['{', '}'], none, rest, ⟨.stateEndTop, true, [], none, b + 1 + 1⟩) := by
  simp [readValueLoop, scanner.run, stateBeginValue, isSpace, scanner.pushParseState,
    maxNestingDepth, stateBeginStringOrEmpty, stateEndValue, scanner.popParseState, stateEndTop]

theorem isSpace_of_mem_replicate (n : Nat) : ∀ c ∈ List.replicate n ' ', isSpace c = true := by
  intro c hc
  rw [List.eq_of_mem_replicate hc]
  decide

theorem MaxBytesReader_of_lt (body : List Char) (n : Nat) (h : n < body.length) :
    MaxBytesReader body n = ⟨body.take n, .maxBytesError n⟩ := by
  have h' : ¬ body.length ≤ n := by omega
  simp [MaxBytesReader, h']

theorem MaxBytesReader_of_le (body : List Char) (n : Nat) (h : body.length ≤ n) :
    MaxBytesReader body n = ⟨body, .eof⟩ := by
  simp [MaxBytesReader, h]

theorem MaxBytesReader_two_then_spaces (a b : Char) (n : Nat) :
    MaxBytesReader (a :: b :: List.replicate (n + 1) ' ') (n + 2)
      = ⟨a :: b :: List.replicate n ' ', .maxBytesError (n + 2 : Nat)⟩ := by
  rw [MaxBytesReader_of_lt _ _ (by simp)]
  simp [List.take_succ_cons, List.take_replicate]

theorem MaxBytesReader_one_then_spaces (a : Char) (n : Nat) :
    MaxBytesReader (a :: List.replicate (n + 1) ' ') (n + 1)
      = ⟨a :: List.replicate n ' ', .maxBytesError (n + 1 : Nat)⟩ := by
  rw [MaxBytesReader_of_lt _ _ (by simp)]
  simp [List.take_succ_cons, List.take_replicate]

theorem MaxBytesReader_over (a b : Char) :
    MaxBytesReader (a :: b :: List.replicate 1048575 ' ') 1048576
      = ⟨a :: b :: List.replicate 1048574 ' ', .maxBytesError 1048576⟩ :=
  MaxBytesReader_two_then_spaces a b 1048574

theorem MaxBytesReader_over_one (a : Char) :
    MaxBytesReader (a :: List.replicate 1048576 ' ') 1048576
      = ⟨a :: List.replicate 1048575 ' ', .maxBytesError 1048576⟩ :=
  MaxBytesReader_one_then_spaces a 1048575

/-- The first decode of a stream that starts with `{}`. -/
theorem Decode_empty_object (q : String → String) (dst : Target) (rest : List Char)
    (final : GoError) :
    (NewDecoder ⟨'{' :: '}' :: rest, final⟩).Decode q dst
      = (dst ['{', '}'],
          ⟨⟨rest, final⟩, ⟨.stateEndTop, true, [], none, 0 + 1 + 1⟩, none⟩) := by
  simp only [Decoder.Decode, NewDecoder, Decoder.readValue, scanner.reset,
    readValueLoop_empty_object]

/-- A decode that meets spaces only and then a failure of the reader. -/
theorem Decode_spaces_final (q : String → String) (v : Target) (ws : List Char)
    (hws : ∀ c ∈ ws, isSpace c = true) (final : GoError) (hf : final ≠ .eof) (s : scanner) :
    (Decoder.Decode q ⟨⟨ws, final⟩, s, none⟩ v).1 = some final := by
  have hsp := readValueLoop_spaces_final q final hf ws hws s.reset (Or.inl rfl) []
  simp only [Decoder.Decode, Decoder.readValue]
  generalize readValueLoop q final ws s.reset [] = r at hsp
  obtain ⟨value, e, rest, s'⟩ := r
  simp only at hsp
  subst hsp
  rfl

/-- A decode that meets spaces only and then the end of the data. -/
theorem Decode_spaces_eof (q : String → String) (v : Target) (ws : List Char)
    (hws : ∀ c ∈ ws, isSpace c = true) (s : scanner) :
    (Decoder.Decode q ⟨⟨ws, .eof⟩, s, none⟩ v).1 = some .eof := by
  have hsp := readValueLoop_spaces_eof q ws hws s.reset rfl [] (by simp)
  simp only [Decoder.Decode, Decoder.readValue]
  generalize readValueLoop q .eof ws s.reset [] = r at hsp
  obtain ⟨value, e, rest, s'⟩ := r
  simp only at hsp
  subst hsp
  rfl

/-- The first decode of a stream that starts with `x`. -/
theorem Decode_bad_byte (q : String → String) (dst : Target) (rest : List Char)
    (final : GoError) :
    ((NewDecoder ⟨'x' :: rest, final⟩).Decode q dst).1
      = some (.syntaxError
          ("invalid character " ++ quoteChar q 'x' ++ " " ++ "looking for beginning of value")
          1) := by
  simp [Decoder.Decode, NewDecoder, Decoder.readValue, scanner.reset, readValueLoop,
    scanner.run, stateBeginValue, isSpace, scanner.error]

/-- A body whose bounded reader delivers `{}`, then spaces, then a failure:
the first decode succeeds and the follow-up decode fails with the reader's
error, so `readJSON` reports a second value. -/
theorem readJSONOfBody_object_then_spaces (q : String → String) (dst emptyStruct : Target)
    (h : dst ['{', '}'] = none) (body ws : List Char) (final : GoError)
    (hbody : MaxBytesReader body 1048576 = ⟨'{' :: '}' :: ws, final⟩)
    (hws : ∀ c ∈ ws, isSpace c = true) (hf : final ≠ .eof) :
    readJSONOfBody q dst emptyStruct body
      = .returned (some (.errorString "Body must only contain a single JSON value.")) := by
  have hsecond := Decode_spaces_final q emptyStruct ws hws final hf
    ⟨.stateEndTop, true, [], none, 0 + 1 + 1⟩
  simp only [readJSONOfBody, hbody, Decode_empty_object, h, hsecond]
  cases final <;> simp [readJSON] at hf ⊢

/-- A body whose bounded reader delivers `x` first: the first decode fails
with a syntax error at the first byte. -/
theorem readJSONOfBody_bad_byte (q : String → String) (dst emptyStruct : Target)
    (body rest : List Char) (final : GoError)
    (hbody : MaxBytesReader body 1048576 = ⟨'x' :: rest, final⟩) :
    readJSONOfBody q dst emptyStruct body
      = .returned (some (.errorString "body contains badly-formated JSON (at character 1).")) := by
  simp only [readJSONOfBody, hbody, Decode_bad_byte]
  simp [readJSON, GoError.asSyntaxError]
  rfl

/-- A body of spaces only, within the budget: the first decode finds the end
of the data before any value. -/
theorem readJSONOfBody_spaces (q : String → String) (dst emptyStruct : Target)
    (body : List Char) (hws : ∀ c ∈ body, isSpace c = true) (hlen : body.length ≤ 1048576) :
    readJSONOfBody q dst emptyStruct body
      = .returned (some (.errorString "Body must not be empty.")) := by
  have hfirst := Decode_spaces_eof q dst body hws ⟨.stateBeginValue, false, [], none, 0⟩
  simp only [readJSONOfBody, MaxBytesReader_of_le body _ hlen, NewDecoder]
  generalize Decoder.Decode q
    ⟨⟨body, .eof⟩, ⟨.stateBeginValue, false, [], none, 0⟩, none⟩ dst = r at hfirst
  obtain ⟨first, dec⟩ := r
  simp only at hfirst
  subst hfirst
  simp [readJSON, GoError.asSyntaxError, GoError.asUnmarshalTypeError, GoError.errorsIs]

theorem object_then_spaces_eval (q : String → String) (emptyStruct : Target) :
    readJSONOfBody q anyValue emptyStruct ('{' :: '}' :: List.replicate 1048575 ' ')
      = .returned (some (.errorString "Body must only contain a single JSON value.")) :=
  readJSONOfBody_object_then_spaces q anyValue emptyStruct rfl _ (List.replicate 1048574 ' ')
    (.maxBytesError 1048576) (MaxBytesReader_over '{' '}') (isSpace_of_mem_replicate _)
    (by decide)

theorem bad_byte_then_spaces_eval (q : String → String) (dst emptyStruct : Target) :
    readJSONOfBody q dst emptyStruct ('x' :: List.replicate 1048576 ' ')
      = .returned (some (.errorString "body contains badly-formated JSON (at character 1).")) :=
  readJSONOfBody_bad_byte q dst emptyStruct _ (List.replicate 1048575 ' ')
    (.maxBytesError 1048576) (MaxBytesReader_over_one 'x')

/-- A decode that meets `{`, then spaces only, then a failure of the
reader. -/
theorem Decode_open_brace_spaces (q : String → String) (dst : Target) (ws : List Char)
    (hws : ∀ c ∈ ws, isSpace c = true) (final : GoError) (hf : final ≠ .eof) :
    ((NewDecoder ⟨'{' :: ws, final⟩).Decode q dst).1 = some final := by
  have hsp := readValueLoop_spaces_final q final hf ws hws
    ⟨.stateBeginStringOrEmpty, false, [.parseObjectKey], none, 0 + 1⟩ (Or.inr (Or.inl rfl))
    ['{']
  have hstep : readValueLoop q final ('{' :: ws) ⟨.stateBeginValue, false, [], none, 0⟩ []
      = readValueLoop q final ws
          ⟨.stateBeginStringOrEmpty, false, [.parseObjectKey], none, 0 + 1⟩ ['{'] := by
    simp [readValueLoop, scanner.run, stateBeginValue, isSpace, scanner.pushParseState,
      maxNestingDepth]
  simp only [Decoder.Decode, NewDecoder, Decoder.readValue, scanner.reset, hstep]
  generalize readValueLoop q final ws
    ⟨.stateBeginStringOrEmpty, false, [.parseObjectKey], none, 0 + 1⟩ ['{'] = r at hsp
  obtain ⟨value, e, rest, s'⟩ := r
  simp only at hsp
  subst hsp
  rfl

theorem length_two_then_spaces (a b : Char) (n : Nat) :
    (a :: b :: List.replicate n ' ').length = n + 2 := by
  simp

theorem length_one_then_spaces (a : Char) (n : Nat) :
    (a :: List.replicate n ' ').length = n + 1 := by
  simp

theorem scanner.error_err (q : String → String) (s : scanner) (c : Char) (ctx : String) :
    scannerErr (scanner.error q s c ctx).1.err := Or.inr ⟨_, _, rfl⟩

theorem stateEndTop_err (q : String → String) (s : scanner) (c : Char) (h : scannerErr s.err) :
    scannerErr (stateEndTop q s c).1.err := by
  unfold stateEndTop
  split
  · exact Or.inr ⟨_, _, rfl⟩
  · exact h

theorem stateEndValue_err (q : String → String) (s : scanner) (c : Char) (h : scannerErr s.err) :
    scannerErr (stateEndValue q s c).1.err := by
  unfold stateEndValue
  split
  · exact stateEndTop_err q _ c h
  · repeat' split
    all_goals first
      | exact h
      | exact Or.inr ⟨_, _, rfl⟩
      | (simp only [scanner.popParseState]; split <;> exact h)

theorem stateBeginValue_err (q : String → String) (s : scanner) (c : Char)
    (h : scannerErr s.err) :
    scannerErr (stateBeginValue q s c).1.err := by
  unfold stateBeginValue
  repeat' split
  all_goals first
    | exact h
    | exact Or.inr ⟨_, _, rfl⟩
    | (simp only [scanner.pushParseState]
       split <;> first | exact h | exact Or.inr ⟨_, _, rfl⟩)

theorem scanner.run_err (q : String → String) (s : scanner) (c : Char) (h : scannerErr s.err) :
    scannerErr (s.run q c).1.err := by
  unfold scanner.run
  split
  all_goals first
    | exact h
    | exact stateBeginValue_err q s c h
    | exact stateEndValue_err q s c h
    | exact stateEndTop_err q s c h
    | (simp only [stateBeginValueOrEmpty, stateBeginStringOrEmpty, stateBeginString, stateInString,
        stateInStringEsc, stateInStringEscHex, stateNeg, state1, state0, stateDot, stateDot0,
        stateE, stateESign, stateE0, stateLiteral]
       repeat' split
       all_goals first
        | exact h
        | exact Or.inr ⟨_, _, rfl⟩
        | exact stateBeginValue_err q s c h
        | exact stateEndValue_err q _ c h)

theorem scannerErr_ne_eof {e : Option GoError} (h : scannerErr e) : e ≠ some .eof := by
  rcases h with h | ⟨m, o, h⟩ <;> simp [h]

/-- A read that fails with `io.EOF` found the end of the data after spaces
only. -/
theorem readValueLoop_eof_only_spaces (q : String → String) (final : GoError)
    (input : List Char) (s : scanner) (hs : scannerErr s.err) (value : List Char)
    (h : (readValueLoop q final input s value).2.1 = some .eof) :
    final = .eof ∧ (∀ c ∈ input, isSpace c = true) ∧
      (∀ c ∈ value, isSpace c = true) := by
  induction input generalizing s value with
  | nil =>
    by_cases hf : final = .eof
    · subst hf
      refine ⟨rfl, by simp, ?_⟩
      simp only [readValueLoop, if_true] at h
      split at h
      · simp at h
      · split at h
        · simp at h
        · rename_i hany
          intro c hc
          simp only [List.any_eq_true, not_exists, not_and, Bool.not_eq_true,
            Bool.not_eq_false'] at hany
          simpa using hany c hc
    · simp [readValueLoop, hf] at h
  | cons c rest ih =>
    have hs0 : scannerErr ({ s with bytes := s.bytes + 1 } : scanner).err := hs
    have hrun := scanner.run_err q _ c hs0
    simp only [readValueLoop] at h
    generalize hr : scanner.run q { s with bytes := s.bytes + 1 } c = r at h hrun
    obtain ⟨s1, op⟩ := r
    simp only at h hrun
    have key : (readValueLoop q final rest s1 (c :: value)).2.1 = some .eof →
        final = .eof ∧ (∀ d ∈ c :: rest, isSpace d = true) ∧
          (∀ d ∈ value, isSpace d = true) := by
      intro h'
      obtain ⟨h1, h2, h3⟩ := ih s1 hrun (c :: value) h'
      refine ⟨h1, ?_, fun d hd => h3 d (List.mem_cons_of_mem _ hd)⟩
      intro d hd
      rcases List.mem_cons.1 hd with e | e
      · rw [e]
        exact h3 c (List.mem_cons_self _ _)
      · exact h2 d e
    cases op
    case scanEnd => simp at h
    case scanError => exact absurd h (scannerErr_ne_eof hrun)
    case scanEndObject =>
      simp only at h
      split at h
      · simp at h
      · exact key h
    case scanEndArray =>
      simp only at h
      split at h
      · simp at h
      · exact key h
    all_goals exact key h

/-- A decode that returns `io.EOF`, on a decoder without a pending error and
into a destination that never answers `io.EOF`, found the end of the data
after spaces only. -/
theorem Decode_eof_only_spaces (q : String → String) (dec : Decoder) (v : Target)
    (herr : dec.err = none) (hv : ∀ x, v x ≠ some .eof)
    (h : (dec.Decode q v).1 = some .eof) :
    dec.r.final = .eof ∧ ∀ c ∈ dec.r.data, isSpace c = true := by
  have hl := readValueLoop_eof_only_spaces q dec.r.final dec.r.data dec.scan.reset
    (Or.inl rfl) []
  simp only [Decoder.Decode, herr, Decoder.readValue] at h
  generalize readValueLoop q dec.r.final dec.r.data dec.scan.reset [] = r at h hl
  obtain ⟨value, e, rest, s'⟩ := r
  cases e with
  | none =>
    simp only at h
    exact absurd h (hv value)
  | some e =>
    simp only at h hl
    obtain ⟨h1, h2, -⟩ := hl h
    exact ⟨h1, h2⟩

/-- After a first decode that returns nil the decoder has no pending error
and its reader ends as before. -/
theorem Decode_nil_state (q : String → String) (dec : Decoder) (v : Target)
    (h : (dec.Decode q v).1 = none) :
    (dec.Decode q v).2.err = none ∧ (dec.Decode q v).2.r.final = dec.r.final := by
  unfold Decoder.Decode at h ⊢
  cases herr : dec.err with
  | some e => simp [herr] at h
  | none =>
    simp only [herr] at h ⊢
    generalize Decoder.readValue q dec = r at h ⊢
    obtain ⟨value, e, rest, s'⟩ := r
    cases e with
    | none => exact ⟨rfl, rfl⟩
    | some e => simp at h

theorem readJSON_nil_iff (q : String → String) (first second : Option GoError) :
    readJSON q first second = .returned none ↔ first = none ∧ second = some .eof := by
  constructor
  · intro h
    cases first with
    | none =>
      refine ⟨rfl, ?_⟩
      by_contra hne
      simp [readJSON, hne] at h
    | some err =>
      exfalso
      unfold readJSON at h
      simp only at h
      repeat' split at h
      all_goals simp at h
  · rintro ⟨h1, h2⟩
    subst h1 h2
    simp [readJSON]

theorem MaxBytesReader_final_eof_iff (body : List Char) (n : Nat) :
    (MaxBytesReader body n).final = .eof ↔ body.length ≤ n := by
  unfold MaxBytesReader
  split <;> simp [*]

/-- On a body `readJSON` returns nil exactly when the body is within the
budget, its first value decodes into the destination, and nothing but spaces
follows that value. -/
theorem readJSONOfBody_nil_iff (q : String → String) (dst emptyStruct : Target)
    (hes : ∀ x, emptyStruct x ≠ some .eof) (body : List Char) :
    readJSONOfBody q dst emptyStruct body = .returned none ↔
      body.length ≤ 1048576 ∧
      ((NewDecoder (MaxBytesReader body 1048576)).Decode q dst).1 = none ∧
      ∀ c ∈ ((NewDecoder (MaxBytesReader body 1048576)).Decode q dst).2.r.data,
        isSpace c = true := by
  have hunfold : readJSONOfBody q dst emptyStruct body
      = readJSON q ((NewDecoder (MaxBytesReader body 1048576)).Decode q dst).1
          ((((NewDecoder (MaxBytesReader body 1048576)).Decode q dst).2).Decode q
            emptyStruct).1 := rfl
  rw [hunfold, readJSON_nil_iff]
  constructor
  · rintro ⟨h1, h2⟩
    obtain ⟨he, hf⟩ := Decode_nil_state q _ dst h1
    obtain ⟨h3, h4⟩ := Decode_eof_only_spaces q _ emptyStruct he hes h2
    rw [hf] at h3
    exact ⟨(MaxBytesReader_final_eof_iff body _).1 h3, h1, h4⟩
  · rintro ⟨hlen, h1, hsp⟩
    refine ⟨h1, ?_⟩
    obtain ⟨he, hf⟩ := Decode_nil_state q _ dst h1
    have hf' : ((NewDecoder (MaxBytesReader body 1048576)).Decode q dst).2.r.final = .eof := by
      rw [hf]
      exact (MaxBytesReader_final_eof_iff body _).2 hlen
    generalize (NewDecoder (MaxBytesReader body 1048576)).Decode q dst = d at he hf' hsp
    obtain ⟨first, ⟨⟨data, final⟩, s, err⟩⟩ := d
    simp only at he hf' hsp
    subst he hf'
    exact Decode_spaces_eof q emptyStruct data hsp s

theorem two_objects_first (q : String → String) :
    (NewDecoder (MaxBytesReader twoObjectsBody 1048576)).Decode q anyValue
      = (none,
          ⟨⟨secondObjectBytes, .eof⟩, ⟨.stateEndTop, true, [], none, 13⟩, none⟩) := by
  rfl

theorem two_objects_second (q : String → String) (es : Target) :
    (Decoder.Decode q
        ⟨⟨secondObjectBytes, .eof⟩, ⟨.stateEndTop, true, [], none, 13⟩, none⟩ es).1
      = es secondObjectBytes := by
  rfl

theorem two_objects (q : String → String) (es : Target) (hes : ∀ x, es x ≠ some .eof) :
    readJSONOfBody q anyValue es twoObjectsBody
      = .returned (some (.errorString "Body must only contain a single JSON value.")) := by
  have h : readJSONOfBody q anyValue es twoObjectsBody
      = readJSON q none (es secondObjectBytes) := by
    rfl
  rw [h]
  simp [readJSON, hes]

theorem object_newline (q : String → String) (es : Target) :
    readJSONOfBody q anyValue es objectNewlineBody = .returned none := by
  rfl

theorem truncated_object (q : String → String) (dst es : Target) :
    readJSONOfBody q dst es truncatedObjectBody
      = .returned (some (.errorString "Body contains badly-formated JSON.")) := by
  rfl

theorem empty_body (q : String → String) (dst es : Target) :
    readJSONOfBody q dst es []
      = .returned (some (.errorString "Body must not be empty.")) := by
  rfl

/-! ## Lemmas on `writeJSON` -/

theorem foldl_set_header (headers : Header) (w : ResponseWriter) :
    headers.foldl (fun w kv => { w with header := w.header.set kv.1 kv.2 }) w
      = { w with header := headers.foldl (fun h kv => h.set kv.1 kv.2) w.header } := by
  induction headers generalizing w with
  | nil => rfl
  | cons kv rest ih => simp only [List.foldl_cons, ih]

theorem foldl_set_get (headers : Header) (hk : headers.keys.Nodup) (h0 : Header)
    (key : String) :
    (headers.foldl (fun h kv => h.set kv.1 kv.2) h0).get key =
      match headers.get key with
      | some v => some v
      | none => h0.get key := by
  induction headers generalizing h0 with
  | nil => rfl
  | cons kv rest ih =>
    obtain ⟨k, v⟩ := kv
    simp only [GoMap.keys, List.map_cons, List.nodup_cons] at hk
    simp only [List.foldl_cons]
    rw [ih hk.2]
    by_cases hkey : k = key
    · subst hkey
      have hnone : GoMap.get rest k = none := (GoMap.get_eq_none_iff rest k).2 hk.1
      simp [hnone, GoMap.get, GoMap.get_set_self]
    · simp only [GoMap.get, hkey, if_false, GoMap.get_set_ne _ _ _ _ hkey]

/-! ## The movie checks: the scenarios and the rules -/

/-- C1, evaluated on the code: for the movie with title "Ok", runtime 100,
year 2000 and genres ["drama"], and every current year, the report of
`ValidateMovie` on a fresh validator (and of the checks of
`createMovieHandler`) is not valid: it holds "Must not be more than 500
bytes long" for the title and "Must contain at lest one genre" for the
genres, and nothing for the runtime; in the year 2024 these two entries are
the whole report. -/
theorem ok_movie_is_rejected (now : Int) :
    (ValidateMovie now Validator.New ⟨"Ok", 2000, 100, some ["drama"]⟩).Valid = false ∧
    (ValidateMovie now Validator.New ⟨"Ok", 2000, 100, some ["drama"]⟩).Errors.get "title"
      = some "Must not be more than 500 bytes long" ∧
    (ValidateMovie now Validator.New ⟨"Ok", 2000, 100, some ["drama"]⟩).Errors.get "genres"
      = some "Must contain at lest one genre" ∧
    (ValidateMovie now Validator.New ⟨"Ok", 2000, 100, some ["drama"]⟩).Errors.get "runtime"
      = none ∧
    createMovieHandlerChecks now ⟨"Ok", 2000, 100, some ["drama"]⟩
      = ValidateMovie now Validator.New ⟨"Ok", 2000, 100, some ["drama"]⟩ ∧
    ValidateMovie 2024 Validator.New ⟨"Ok", 2000, 100, some ["drama"]⟩
      = ⟨[("title", "Must not be more than 500 bytes long"),
          ("genres", "Must contain at lest one genre")]⟩ := by
  have ht : (ValidateMovie now Validator.New ⟨"Ok", 2000, 100, some ["drama"]⟩).Errors.get
      "title" = some "Must not be more than 500 bytes long" := by
    rw [ValidateMovie_eq_runChecks, runChecks_get]
    simp [Validator.New, GoMap.get, firstFailure, movieChecks, strLen, List.find?]
    decide
  refine ⟨?_, ht, ?_, ?_, rfl, by decide⟩
  · cases hv : (ValidateMovie now Validator.New ⟨"Ok", 2000, 100, some ["drama"]⟩).Valid with
    | false => rfl
    | true =>
      rw [(Validator.Valid_iff_get _).1 hv "title"] at ht
      exact Option.noConfusion ht
  · rw [ValidateMovie_eq_runChecks, runChecks_get]
    simp [Validator.New, GoMap.get, firstFailure, movieChecks, sliceLen, Unique, List.find?]
  · rw [ValidateMovie_eq_runChecks, runChecks_get]
    simp [Validator.New, GoMap.get, firstFailure, movieChecks, List.find?]

/-- C6: for the movie with title "", runtime 0, year 1800 and genres
["a","a"], and every current year, `ValidateMovie` on a fresh validator (and
the checks of `createMovieHandler`) yields the report with exactly the four
entries title: "Must be provided", runtime: "Must be provided", year: "Must
be greater than 1888" and genres: "Must not contain duplicates"; `Unique`
rejects ["a","a"], and accepts a collection exactly when no two of its
elements are equal. -/
theorem four_failures_scenario (now : Int) :
    ValidateMovie now Validator.New ⟨"", 1800, 0, some ["a", "a"]⟩ =
      ⟨[("title", "Must be provided"), ("runtime", "Must be provided"),
        ("year", "Must be greater than 1888"), ("genres", "Must not contain duplicates")]⟩ ∧
    createMovieHandlerChecks now ⟨"", 1800, 0, some ["a", "a"]⟩ =
      ⟨[("title", "Must be provided"), ("runtime", "Must be provided"),
        ("year", "Must be greater than 1888"), ("genres", "Must not contain duplicates")]⟩ ∧
    (ValidateMovie now Validator.New ⟨"", 1800, 0, some ["a", "a"]⟩).Errors.keys =
      ["title", "runtime", "year", "genres"] ∧
    Unique ["a", "a"] = false ∧
    (∀ l : List String, Unique l = true ↔ l.Nodup) := by
  have h : ValidateMovie now Validator.New ⟨"", 1800, 0, some ["a", "a"]⟩ =
      ⟨[("title", "Must be provided"), ("runtime", "Must be provided"),
        ("year", "Must be greater than 1888"), ("genres", "Must not contain duplicates")]⟩ := by
    by_cases hy : (1800 : Int) ≥ toInt32 now
    · simp [ValidateMovie, Validator.Check, Validator.New, GoMap.get, GoMap.set, strLen,
        sliceLen, sliceElems, Unique, hy]
    · simp [ValidateMovie, Validator.Check, Validator.New, GoMap.get, GoMap.set, strLen,
        sliceLen, sliceElems, Unique, hy]
  refine ⟨h, ?_, ?_, by decide, Unique_iff_nodup⟩
  · rw [createMovieHandlerChecks_eq, h]
  · rw [h]
    rfl

/-- C7: on every movie and every current year, the report of
`ValidateMovie` on a fresh validator holds, for every field, the message of
the first call to `Check` in source order that fails on that field (and no
entry when none fails), and at most one entry per field; a failing `Check` on
a field that has an entry changes nothing; and on every movie whose year is
0 the fifth and the sixth call, "Must be provided" and "Must be greater than
1888", both fail on "year", and the report holds exactly one entry for
"year", equal to "Must be provided". -/
theorem first_failure_wins (now : Int) (movie : Movie) :
    (∀ field, (ValidateMovie now Validator.New movie).Errors.get field
        = firstFailure (movieChecks now movie) field) ∧
    (∀ field, (ValidateMovie now Validator.New movie).Errors.keys.count field ≤ 1) ∧
    (∀ (v : Validator) (field old message : String), v.Errors.get field = some old →
        v.Check false field message = v) ∧
    (movie.Year = 0 →
      (movieChecks now movie)[4]? = some ⟨false, "year", "Must be provided"⟩ ∧
      (movieChecks now movie)[5]? = some ⟨false, "year", "Must be greater than 1888"⟩ ∧
      (ValidateMovie now Validator.New movie).Errors.get "year" = some "Must be provided" ∧
      (ValidateMovie now Validator.New movie).Errors.keys.count "year" = 1) := by
  have hget : ∀ field, (ValidateMovie now Validator.New movie).Errors.get field
      = firstFailure (movieChecks now movie) field := by
    intro field
    rw [ValidateMovie_eq_runChecks, runChecks_get]
    rfl
  have hnodup : (ValidateMovie now Validator.New movie).Errors.keys.Nodup := by
    rw [ValidateMovie_eq_runChecks]
    exact runChecks_keys_nodup _ _ (by simp [Validator.New, GoMap.keys])
  refine ⟨hget, ?_, ?_, ?_⟩
  · intro field
    exact List.nodup_iff_count_le_one.1 hnodup field
  · intro v field old message h
    simp [Validator.Check, h]
  · intro hy
    have hyear : (ValidateMovie now Validator.New movie).Errors.get "year"
        = some "Must be provided" := by
      rw [hget]
      simp [firstFailure, movieChecks, List.find?, hy]
    refine ⟨?_, ?_, hyear,
      List.count_eq_one_of_mem hnodup (GoMap.mem_keys_of_get _ _ _ hyear)⟩
    · simp [movieChecks, hy]
    · simp [movieChecks, hy]

/-- The year-0 case on a concrete movie: one entry for "year", "Must be
provided". -/
theorem first_failure_wins_witness :
    (ValidateMovie 2024 Validator.New ⟨"Casablanca", 0, 102, some ["drama", "war"]⟩).Errors.get
        "year" = some "Must be provided" ∧
    (ValidateMovie 2024 Validator.New
        ⟨"Casablanca", 0, 102, some ["drama", "war"]⟩).Errors.keys.count "year" = 1 :=
  ((first_failure_wins 2024 ⟨"Casablanca", 0, 102, some ["drama", "war"]⟩).2.2.2 rfl).2.2

/-- C10, evaluated on the code: the reports of `ValidateMovie` on a fresh
validator are valid exactly on the movies whose title is longer than 500
bytes, whose runtime is positive, whose year is at least 1888 and earlier
than the current year, and whose genres are non-nil, 2 to 4 in number and
pairwise distinct; so every movie that meets the documented rules gets a
report that is not valid, and validity is not equivalent to the documented
rules. The movie "Casablanca" of 1942, runtime 102, genres drama, romance
and war meets the documented rules in 2024 and its report holds "Must not be
more than 500 bytes long" for the title. -/
theorem documented_rules_not_decided :
    (∀ (now : Int) (movie : Movie),
      (ValidateMovie now Validator.New movie).Valid = true ↔ acceptedByChecks now movie) ∧
    (∀ (now : Int) (movie : Movie), documentedRules now movie →
      (ValidateMovie now Validator.New movie).Valid = false) ∧
    documentedRules 2024 ⟨"Casablanca", 1942, 102, some ["drama", "romance", "war"]⟩ ∧
    ValidateMovie 2024 Validator.New ⟨"Casablanca", 1942, 102, some ["drama", "romance", "war"]⟩
      = ⟨[("title", "Must not be more than 500 bytes long")]⟩ ∧
    (ValidateMovie 2024 Validator.New
      ⟨"Casablanca", 1942, 102, some ["drama", "romance", "war"]⟩).Valid = false ∧
    ¬ (∀ (now : Int) (movie : Movie),
      (ValidateMovie now Validator.New movie).Valid = true ↔ documentedRules now movie) := by
  have hdoc : documentedRules 2024
      ⟨"Casablanca", 1942, 102, some ["drama", "romance", "war"]⟩ := by
    simp [documentedRules, strLen, sliceLen, sliceElems]
    decide
  have hrej : ∀ (now : Int) (movie : Movie), documentedRules now movie →
      (ValidateMovie now Validator.New movie).Valid = false := by
    intro now movie hd
    cases hv : (ValidateMovie now Validator.New movie).Valid with
    | false => rfl
    | true =>
      have hacc := (ValidateMovie_valid_iff now movie).1 hv
      have h1 := hacc.1
      have h2 := hd.2.1
      omega
  refine ⟨ValidateMovie_valid_iff, hrej, hdoc, by decide, by decide, ?_⟩
  intro hall
  have h := (hall 2024 _).2 hdoc
  rw [hrej 2024 _ hdoc] at h
  exact Bool.noConfusion h

/-! ## `readJSON`: the classification of the decoder's signals -/

/-- C3, evaluated on the code: for every key, when the strict decoder fails
with `json: unknown field` followed by the quoted key, `readJSON` returns
the error whose message is "Body contains unkown key " followed by the whole
text of the decoder's error, its phrase "json: unknown field" included; for
the key foo the message is `Body contains unkown key json: unknown field
"foo"`, which is not "Body contains unkown key " followed by the field
name. -/
theorem unknown_field_message_keeps_phrase (strconvQuote : String → String) (key : String)
    (second : Option GoError) :
    readJSON strconvQuote (some (unknownFieldError strconvQuote key)) second
      = .returned (some (.errorString
          ("Body contains unkown key json: unknown field " ++ strconvQuote key))) ∧
    readJSON quotePlain (some (unknownFieldError quotePlain "foo")) second
      = .returned (some (.errorString
          "Body contains unkown key json: unknown field \"foo\"")) ∧
    readJSON quotePlain (some (unknownFieldError quotePlain "foo")) second
      ≠ .returned (some (.errorString "Body contains unkown key foo")) ∧
    readJSON quotePlain (some (unknownFieldError quotePlain "foo")) second
      ≠ .returned (some (.errorString "Body contains unkown key \"foo\"")) := by
  have key_case : ∀ (q : String → String) (k : String),
      readJSON q (some (unknownFieldError q k)) second
        = .returned (some (.errorString
            ("Body contains unkown key json: unknown field " ++ q k))) := by
    intro q k
    have h1 := unknownFieldError_hasPrefix q k
    have h2 := unknownFieldError_trimPrefix q k
    have h3 : "Body contains unkown key " ++ ("json: unknown field " ++ q k)
        = "Body contains unkown key json: unknown field " ++ q k := by
      rw [← String.append_assoc]
      rfl
    simp only [readJSON, h1, h2, if_true]
    simp [unknownFieldError, GoError.asSyntaxError, GoError.asUnmarshalTypeError,
      GoError.errorsIs, GoError.Error, h3]
  refine ⟨key_case strconvQuote key, ?_, ?_, ?_⟩
  · rw [key_case]
    decide
  · rw [key_case]
    decide
  · rw [key_case]
    decide

/-- C4: when the first decode succeeds, `readJSON` returns nil exactly when
the follow-up decode returns `io.EOF`; for every other outcome of the
follow-up decode (a second value decoded, or any other error) it returns
the error "Body must only contain a single JSON value.". On bodies (the
unmarshalling into the empty struct never answering `io.EOF`): `readJSON`
returns nil exactly when the body is within the budget, its first value
decodes into the destination and nothing but spaces follows that value; the
body `twoObjectsBody` ends with the error, and the body `objectNewlineBody`
ends with nil. -/
theorem single_value_only (strconvQuote : String → String) (second : Option GoError) :
    (readJSON strconvQuote none second = .returned none ↔ second = some .eof) ∧
    (second ≠ some .eof →
      readJSON strconvQuote none second
        = .returned (some (.errorString "Body must only contain a single JSON value."))) ∧
    readJSON strconvQuote none none
      = .returned (some (.errorString "Body must only contain a single JSON value.")) ∧
    readJSON strconvQuote none (some .eof) = .returned none ∧
    (∀ (dst emptyStruct : Target) (body : List Char), (∀ x, emptyStruct x ≠ some .eof) →
      (readJSONOfBody strconvQuote dst emptyStruct body = .returned none ↔
        body.length ≤ 1048576 ∧
        ((NewDecoder (MaxBytesReader body 1048576)).Decode strconvQuote dst).1 = none ∧
        ∀ c ∈ ((NewDecoder (MaxBytesReader body 1048576)).Decode strconvQuote dst).2.r.data,
          isSpace c = true)) ∧
    (∀ emptyStruct : Target, (∀ x, emptyStruct x ≠ some .eof) →
      readJSONOfBody strconvQuote anyValue emptyStruct
          twoObjectsBody
        = .returned (some (.errorString "Body must only contain a single JSON value."))) ∧
    (∀ emptyStruct : Target,
      readJSONOfBody strconvQuote anyValue emptyStruct objectNewlineBody
        = .returned none) := by
  refine ⟨?_, ?_, ?_, ?_, ?_, ?_, ?_⟩
  · by_cases h : second = some .eof
    · simp [readJSON, h]
    · simp [readJSON, h]
  · intro h
    simp [readJSON, h]
  · simp [readJSON]
  · simp [readJSON]
  · intro dst emptyStruct body hes
    exact readJSONOfBody_nil_iff strconvQuote dst emptyStruct hes body
  · intro emptyStruct hes
    exact two_objects strconvQuote emptyStruct hes
  · intro emptyStruct
    exact object_newline strconvQuote emptyStruct

/-- C5: for every invalid-target error of the decoder (whatever type it
names), `readJSON` panics with that error: no earlier case of the switch
captures it; for every failure signal in whose chain there is no
invalid-target error, `readJSON` returns an error and does not panic; and
when the first decode succeeds it returns as well. -/
theorem invalid_target_is_fatal (strconvQuote : String → String) (second : Option GoError) :
    (∀ typ : Option (Bool × String),
      readJSON strconvQuote (some (.invalidUnmarshalError typ)) second
        = .panicked (.invalidUnmarshalError typ)) ∧
    (∀ err : GoError, err.asInvalidUnmarshalError = false →
      ∃ e, readJSON strconvQuote (some err) second = .returned (some e)) ∧
    (∃ r, readJSON strconvQuote none second = .returned r) := by
  refine ⟨?_, ?_, ?_⟩
  · intro typ
    have h1 := invalidUnmarshalError_not_unknown_field typ
    have h2 := invalidUnmarshalError_not_too_large typ
    simp [readJSON, GoError.asSyntaxError, GoError.asUnmarshalTypeError, GoError.errorsIs,
      GoError.asInvalidUnmarshalError, h1, h2]
  · intro err h
    unfold readJSON
    simp only [h]
    repeat' split
    all_goals first | exact ⟨_, rfl⟩ | simp_all
  · by_cases h : second = some .eof
    · exact ⟨none, by simp [readJSON, h]⟩
    · exact ⟨some (.errorString "Body must only contain a single JSON value."),
        by simp [readJSON, h]⟩

/-- C8: whenever the first decode returns `io.EOF`, `readJSON` returns the
error "Body must not be empty."; whenever it returns `io.ErrUnexpectedEOF`,
the stream having ended inside a value, `readJSON` returns "Body contains
badly-formated JSON."; the two errors differ. On bodies: the empty body, and
every body of spaces only within the budget, ends with "Body must not be
empty.", and the body `truncatedObjectBody`, which stops inside a value,
ends with "Body contains badly-formated JSON.". -/
theorem empty_body_message (strconvQuote : String → String) (second : Option GoError) :
    readJSON strconvQuote (some .eof) second
      = .returned (some (.errorString "Body must not be empty.")) ∧
    readJSON strconvQuote (some .unexpectedEOF) second
      = .returned (some (.errorString "Body contains badly-formated JSON.")) ∧
    readJSON strconvQuote (some .eof) second
      ≠ readJSON strconvQuote (some .unexpectedEOF) second ∧
    (∀ dst emptyStruct : Target,
      readJSONOfBody strconvQuote dst emptyStruct []
        = .returned (some (.errorString "Body must not be empty."))) ∧
    (∀ (dst emptyStruct : Target) (body : List Char),
      (∀ c ∈ body, isSpace c = true) → body.length ≤ 1048576 →
      readJSONOfBody strconvQuote dst emptyStruct body
        = .returned (some (.errorString "Body must not be empty."))) ∧
    (∀ dst emptyStruct : Target,
      readJSONOfBody strconvQuote dst emptyStruct truncatedObjectBody
        = .returned (some (.errorString "Body contains badly-formated JSON."))) := by
  have h1 : readJSON strconvQuote (some .eof) second
      = .returned (some (.errorString "Body must not be empty.")) := by
    simp [readJSON, GoError.asSyntaxError, GoError.asUnmarshalTypeError, GoError.errorsIs]
  have h2 : readJSON strconvQuote (some .unexpectedEOF) second
      = .returned (some (.errorString "Body contains badly-formated JSON.")) := by
    simp [readJSON, GoError.asSyntaxError, GoError.errorsIs]
  refine ⟨h1, h2, ?_, ?_, ?_, ?_⟩
  · rw [h1, h2]
    decide
  · intro dst emptyStruct
    exact empty_body strconvQuote dst emptyStruct
  · intro dst emptyStruct body hws hlen
    exact readJSONOfBody_spaces strconvQuote dst emptyStruct body hws hlen
  · intro dst emptyStruct
    exact truncated_object strconvQuote dst emptyStruct

/-! ## `readJSON` on oversized bodies -/

/-- C2 as stated fails: the body `{}` followed by 1,048,575 spaces is longer
than 1,048,576 bytes and, decoded into a destination that receives any
value, ends with "Body must only contain a single JSON value."; the body `x`
followed by 1,048,576 spaces is longer than 1,048,576 bytes and ends with
"body contains badly-formated JSON (at character 1)."; so not every body
longer than 1,048,576 bytes ends with "Body must not be larger than 1048576
bytes". -/
theorem oversized_body_other_messages :
    1048576 < ('{' :: '}' :: List.replicate 1048575 ' ').length ∧
    (∀ (q : String → String) (emptyStruct : Target),
      readJSONOfBody q anyValue emptyStruct ('{' :: '}' :: List.replicate 1048575 ' ')
        = .returned (some (.errorString "Body must only contain a single JSON value."))) ∧
    1048576 < ('x' :: List.replicate 1048576 ' ').length ∧
    (∀ (q : String → String) (dst emptyStruct : Target),
      readJSONOfBody q dst emptyStruct ('x' :: List.replicate 1048576 ' ')
        = .returned (some (.errorString
            "body contains badly-formated JSON (at character 1)."))) ∧
    ¬ (∀ (q : String → String) (dst emptyStruct : Target) (body : List Char),
        1048576 < body.length →
        readJSONOfBody q dst emptyStruct body
          = .returned (some (.errorString "Body must not be larger than 1048576 bytes"))) := by
  have h1 : 1048576 < ('{' :: '}' :: List.replicate 1048575 ' ').length := by
    rw [length_two_then_spaces]
    decide
  have h2 : 1048576 < ('x' :: List.replicate 1048576 ' ').length := by
    rw [length_one_then_spaces]
    decide
  refine ⟨h1, object_then_spaces_eval, h2, bad_byte_then_spaces_eval, ?_⟩
  intro hall
  have h3 := hall id anyValue anyValue _ h2
  rw [bad_byte_then_spaces_eval] at h3
  revert h3
  decide

/-- C2, amended: for every body longer than 1,048,576 bytes: when the
first decode fails with the error of the bounded reader, "http: request body
too large", `readJSON` returns the error whose message is exactly "Body must
not be larger than 1048576 bytes"; and, the unmarshalling into the empty
struct never answering `io.EOF`, `readJSON` never returns nil, and returns
"Body must only contain a single JSON value." when the first decode
succeeds. -/
theorem body_too_large_message (q : String → String) (dst emptyStruct : Target)
    (body : List Char) (hlen : 1048576 < body.length) :
    (((NewDecoder (MaxBytesReader body 1048576)).Decode q dst).1
        = some (.maxBytesError 1048576) →
      readJSONOfBody q dst emptyStruct body
        = .returned (some (.errorString "Body must not be larger than 1048576 bytes"))) ∧
    ((∀ x, emptyStruct x ≠ some .eof) →
      readJSONOfBody q dst emptyStruct body ≠ .returned none) ∧
    ((∀ x, emptyStruct x ≠ some .eof) →
      ((NewDecoder (MaxBytesReader body 1048576)).Decode q dst).1 = none →
      readJSONOfBody q dst emptyStruct body
        = .returned (some (.errorString "Body must only contain a single JSON value."))) := by
  have hunfold : readJSONOfBody q dst emptyStruct body
      = readJSON q ((NewDecoder (MaxBytesReader body 1048576)).Decode q dst).1
          ((((NewDecoder (MaxBytesReader body 1048576)).Decode q dst).2).Decode q
            emptyStruct).1 := rfl
  have hnil : (∀ x, emptyStruct x ≠ some .eof) →
      readJSONOfBody q dst emptyStruct body ≠ .returned none := by
    intro hes h
    have := ((readJSONOfBody_nil_iff q dst emptyStruct hes body).1 h).1
    omega
  refine ⟨?_, hnil, ?_⟩
  · intro hfirst
    rw [hunfold, hfirst]
    simp only [readJSON, GoError.asSyntaxError, GoError.asUnmarshalTypeError, GoError.errorsIs,
      GoError.Error, HasPrefix]
    decide
  · intro hes hfirst
    have hne := hnil hes
    rw [hunfold, hfirst] at hne ⊢
    by_cases hsec : (((NewDecoder (MaxBytesReader body 1048576)).Decode q dst).2.Decode q
        emptyStruct).1 = some .eof
    · rw [hsec] at hne
      exact absurd (by simp [readJSON]) hne
    · simp [readJSON, hsec]

/-- The body `{` followed by 1,048,576 spaces: the first decode reaches the
budget, and `readJSON` answers "Body must not be larger than 1048576
bytes". -/
theorem body_too_large_message_witness :
    1048576 < ('{' :: List.replicate 1048576 ' ').length ∧
    readJSONOfBody id anyValue anyValue ('{' :: List.replicate 1048576 ' ')
      = .returned (some (.errorString "Body must not be larger than 1048576 bytes")) :=
  have hlen : 1048576 < ('{' :: List.replicate 1048576 ' ').length := by
    rw [length_one_then_spaces]
    decide
  ⟨hlen, (body_too_large_message id anyValue anyValue _ hlen).1 (by
    rw [MaxBytesReader_over_one]
    exact Decode_open_brace_spaces id anyValue _ (isSpace_of_mem_replicate _) _ (by decide))⟩

/-! ## `writeJSON`: the response -/

/-- The response that `writeJSON` leaves when the envelope encodes to `js`,
the status is a code from 200 to 999 that allows a body, and no
Content-Length is declared. -/
theorem writeJSON_returned {Envelope : Type}
    (MarshalIndent : Envelope → String → String → Except GoError (List Char))
    (header0 : Header) (status : Int) (data : Envelope) (headers : Header) (js : List Char)
    (hjs : MarshalIndent data "" "\t" = .ok js)
    (hkeys : headers.keys.Nodup) (hlo : 200 ≤ status) (hhi : status ≤ 999)
    (h204 : status ≠ 204) (h304 : status ≠ 304)
    (hcl : headers.get "Content-Length" = none) (hcl0 : header0.get "Content-Length" = none) :
    writeJSON MarshalIndent (ResponseWriter.new header0) status data headers
      = .returned
          ⟨(headers.foldl (fun h kv => h.set kv.1 kv.2) header0).set "Content-Type"
              ["application/json"],
            some status, none, ((js ++ ['\n']).length : Int), [], js ++ ['\n']⟩
          none := by
  have hne : "Content-Type" ≠ "Content-Length" := by decide
  have hget : GoMap.get ((headers.foldl (fun h kv => h.set kv.1 kv.2) header0).set
      "Content-Type" ["application/json"]) "Content-Length" = none := by
    rw [GoMap.get_set_ne _ _ _ _ hne, foldl_set_get headers hkeys, hcl]
    exact hcl0
  have hcheck : checkWriteHeaderCode status = .ok () := by
    have : ¬ (status < 100 ∨ status > 999) := by omega
    simp [checkWriteHeaderCode, this]
  have hinfo : ¬ (100 ≤ status ∧ status ≤ 199 ∧ status ≠ 101) := by omega
  have hbody : bodyAllowedForStatus status = true := by
    have : ¬ (100 ≤ status ∧ status ≤ 199) := by omega
    simp [bodyAllowedForStatus, this, h204, h304]
  simp [writeJSON, hjs, foldl_set_header, ResponseWriter.new, ResponseWriter.WriteHeader,
    ResponseWriter.Write, hcheck, hinfo, hbody, Header.getValue, hget]

/-- C9 as stated fails: with an encoder that yields `{}`, on a response on
which nothing was written and without extra headers, `writeJSON` with the
status 0 sets the Content-Type and then panics in `WriteHeader` with
"invalid WriteHeader code 0": no status and no body is written and nothing
is returned, and likewise with the status 1000; with the status 204, 304 or
101 it returns nil and the body stays empty; with the status 102 the status
written is 200; with the status 200 and the extra header Content-Length: 1
the body stays empty. So it is not the case that for every status code the
status written is the given one and the body is the encoding followed by a
newline. -/
theorem writeJSON_other_status_codes :
    writeJSON encodeEmptyObject (ResponseWriter.new []) 0 () []
      = .panicked ⟨[("Content-Type", ["application/json"])], none, none, 0, [], []⟩
          "invalid WriteHeader code 0" ∧
    writeJSON encodeEmptyObject (ResponseWriter.new []) 1000 () []
      = .panicked ⟨[("Content-Type", ["application/json"])], none, none, 0, [], []⟩
          "invalid WriteHeader code 1000" ∧
    writeJSON encodeEmptyObject (ResponseWriter.new []) 204 () []
      = .returned ⟨[("Content-Type", ["application/json"])], some 204, none, 0, [], []⟩
          none ∧
    writeJSON encodeEmptyObject (ResponseWriter.new []) 304 () []
      = .returned ⟨[("Content-Type", ["application/json"])], some 304, none, 0, [], []⟩
          none ∧
    writeJSON encodeEmptyObject (ResponseWriter.new []) 101 () []
      = .returned ⟨[("Content-Type", ["application/json"])], some 101, none, 0, [], []⟩
          none ∧
    writeJSON encodeEmptyObject (ResponseWriter.new []) 102 () []
      = .returned
          ⟨[("Content-Type", ["application/json"])], some 200, none, 3, [102],
            ['{', '}', '\n']⟩
          none ∧
    writeJSON encodeEmptyObject (ResponseWriter.new []) 200 () [("Content-Length", ["1"])]
      = .returned
          ⟨[("Content-Length", ["1"]), ("Content-Type", ["application/json"])], some 200,
            some 1, 3, [], []⟩
          none ∧
    ¬ (∀ (status : Int) (headers : Header), headers.keys.Nodup →
        ∃ w, writeJSON encodeEmptyObject (ResponseWriter.new []) status () headers
            = .returned w none ∧
          w.status = some status ∧ w.body = ['{', '}', '\n']) := by
  have h0 : writeJSON encodeEmptyObject (ResponseWriter.new []) 0 () []
      = .panicked ⟨[("Content-Type", ["application/json"])], none, none, 0, [], []⟩
          "invalid WriteHeader code 0" := by decide
  refine ⟨h0, by decide, by decide, by decide, by decide, by decide, by decide, ?_⟩
  intro hall
  obtain ⟨w, hw, -, -⟩ := hall 0 [] (by decide)
  rw [h0] at hw
  exact WriteOutcome.noConfusion hw

/-- C9, amended: on a response on which nothing was written yet, for every
status code from 200 to 999 other than 204 and 304, every envelope and
every map of extra headers, no Content-Length being declared by the extra
headers or on the response: when the envelope encodes to `js`, `writeJSON`
returns nil and leaves the header "Content-Type" equal to the one value
"application/json" (whatever the extra headers hold), every extra header
under another key with its supplied values, every other header as it was,
the given status as the status written, and `js` followed by one newline as
the body. On every response, for every status code and all extra headers:
when the encoding fails, `writeJSON` returns the encoder's error and the
response is unchanged. -/
theorem writeJSON_effect {Envelope : Type}
    (MarshalIndent : Envelope → String → String → Except GoError (List Char))
    (w : ResponseWriter) (header0 : Header) (status : Int) (data : Envelope)
    (headers : Header) :
    (headers.keys.Nodup → 200 ≤ status → status ≤ 999 → status ≠ 204 → status ≠ 304 →
      headers.get "Content-Length" = none → header0.get "Content-Length" = none →
      ∀ js, MarshalIndent data "" "\t" = .ok js →
      ∃ w', writeJSON MarshalIndent (ResponseWriter.new header0) status data headers
          = .returned w' none ∧
        w'.header.get "Content-Type" = some ["application/json"] ∧
        (∀ key value, key ≠ "Content-Type" → headers.get key = some value →
          w'.header.get key = some value) ∧
        (∀ key, key ≠ "Content-Type" → headers.get key = none →
          w'.header.get key = header0.get key) ∧
        w'.status = some status ∧
        w'.body = js ++ ['\n']) ∧
    (∀ err, MarshalIndent data "" "\t" = .error err →
      writeJSON MarshalIndent w status data headers = .returned w (some err)) := by
  constructor
  · intro hkeys hlo hhi h204 h304 hcl hcl0 js hjs
    refine ⟨_, writeJSON_returned MarshalIndent header0 status data headers js hjs hkeys hlo
      hhi h204 h304 hcl hcl0, GoMap.get_set_self _ _ _, ?_, ?_, rfl, rfl⟩
    · intro key value hne hget
      have hne' : "Content-Type" ≠ key := fun e => hne e.symm
      simp only [GoMap.get_set_ne _ _ _ _ hne', foldl_set_get headers hkeys, hget]
    · intro key hne hget
      have hne' : "Content-Type" ≠ key := fun e => hne e.symm
      simp only [GoMap.get_set_ne _ _ _ _ hne', foldl_set_get headers hkeys, hget]
  · intro err herr
    simp [writeJSON, herr]

/-- A response on which nothing was written, the status 201, an encoder that
yields `{}` and the extra headers Location and Content-Type: `writeJSON`
returns nil on a response with the Content-Type "application/json", the
Location as supplied, the status 201 and the body `{}` and a newline. -/
theorem writeJSON_effect_witness :
    writeJSON encodeEmptyObject (ResponseWriter.new []) 201 ()
        [("Location", ["/v1/movies/1"]), ("Content-Type", ["text/plain"])]
      = .returned
          ⟨[("Location", ["/v1/movies/1"]), ("Content-Type", ["application/json"])],
            some 201, none, 3, [], ['{', '}', '\n']⟩
          none ∧
    ∃ w', writeJSON encodeEmptyObject (ResponseWriter.new []) 201 ()
        [("Location", ["/v1/movies/1"]), ("Content-Type", ["text/plain"])]
          = .returned w' none ∧
      w'.header.get "Content-Type" = some ["application/json"] ∧
      w'.header.get "Location" = some ["/v1/movies/1"] ∧
      w'.status = some 201 ∧
      w'.body = ['{', '}', '\n'] :=
  have h := (writeJSON_effect encodeEmptyObject (ResponseWriter.new []) [] 201 ()
    [("Location", ["/v1/movies/1"]), ("Content-Type", ["text/plain"])]).1
    (by decide) (by decide) (by decide) (by decide) (by decide) (by decide) (by decide)
    ['{', '}'] rfl
  match h with
  | ⟨w', hw, hct, hextra, _, hstatus, hbody⟩ =>
    ⟨by decide,
      w', hw, hct, hextra "Location" ["/v1/movies/1"] (by decide) (by decide), hstatus, hbody⟩

end Greenlight
